import Mathlib

/-!
# IncludeOS TCP connection engine: congestion and flow control arithmetic

A shallow embedding of the inline member functions of `net::tcp::Connection`
(`api/net/tcp/connection.hpp`) that compute windows, classify incoming
acknowledgements and maintain the NewReno congestion variables.

Machine integers are embedded as `Nat` (unsigned) and `Int` (signed); every
place where the C++ code converts or wraps is an explicit call of
`to_uint32`, `to_uint16` or `to_int64`.
-/

namespace net.tcp

/-! ## Machine integer conversions -/

/-- Conversion of an integer value to `uint32_t` (reduction modulo 2^32). -/
def to_uint32 (z : Int) : Nat := (z % 4294967296).toNat

/-- Conversion of an integer value to `uint16_t` (reduction modulo 2^16). -/
def to_uint16 (z : Int) : Nat := (z % 65536).toNat

/-- Conversion of an integer value to `int64_t` (two's complement, 64 bit). -/
def to_int64 (z : Int) : Int :=
  (z + 9223372036854775808) % 18446744073709551616 - 9223372036854775808

/-- Conversion of an integer value to `int` (two's complement, 32 bit). -/
def to_int32 (z : Int) : Int := (z + 2147483648) % 4294967296 - 2147483648

/-- The values a `uint32_t` (and so a `seq_t`) can hold. -/
abbrev is_uint32 (n : Nat) : Prop := n < 4294967296

/-- The values a `uint16_t` can hold. -/
abbrev is_uint16 (n : Nat) : Prop := n < 65536

/-! ## Data model -/

/-- Send sequence variables, the anonymous struct `TCB::SND`. -/
structure TCB_SND where
  /-- send unacknowledged -/
  UNA : Nat
  /-- send next -/
  NXT : Nat
  /-- send window -/
  WND : Nat
  /-- send urgent pointer -/
  UP : Nat
  /-- segment sequence number used for last window update -/
  WL1 : Nat
  /-- segment acknowledgment number used for last window update -/
  WL2 : Nat
  /-- maximum segment size for outgoing segments -/
  MSS : Nat
  /-- window scale factor -/
  wind_shift : Nat
  /-- use timestamp option -/
  TS_OK : Bool
  deriving DecidableEq, Repr

/-- Receive sequence variables, the anonymous struct `TCB::RCV`. -/
structure TCB_RCV where
  /-- receive next -/
  NXT : Nat
  /-- receive window -/
  WND : Nat
  /-- receive urgent pointer -/
  UP : Nat
  /-- receivers advertised window -/
  rwnd : Nat
  /-- window scale factor -/
  wind_shift : Nat
  deriving DecidableEq, Repr

/-- Transmission Control Block, `Connection::TCB`. -/
structure TCB where
  SND : TCB_SND
  /-- initial send sequence number -/
  ISS : Nat
  RCV : TCB_RCV
  /-- initial receive sequence number -/
  IRS : Nat
  /-- slow start threshold -/
  ssthresh : Nat
  /-- congestion window -/
  cwnd : Nat
  /-- NewReno recovery point -/
  recover : Nat
  /-- recent timestamp received -/
  TS_recent : Nat
  deriving DecidableEq, Repr

/-- The 32-bit fields of a TCB hold 32-bit values. -/
def TCB.in_range (cb : TCB) : Prop :=
  is_uint32 cb.SND.UNA ∧ is_uint32 cb.SND.NXT ∧ is_uint32 cb.SND.WND ∧
  is_uint32 cb.SND.WL1 ∧ is_uint32 cb.SND.WL2 ∧
  is_uint32 cb.ssthresh ∧ is_uint32 cb.cwnd ∧ is_uint32 cb.recover

instance (cb : TCB) : Decidable cb.in_range := by
  unfold TCB.in_range; infer_instance

/-! ## Windows -/

/-- Member function `Connection::flight_size`: `cb.SND.NXT - cb.SND.UNA` in `uint32_t`. -/
def flight_size (cb : TCB) : Nat :=
  to_uint32 ((cb.SND.NXT : Int) - (cb.SND.UNA : Int))

/-- Member function `Connection::send_window`: `std::min(cb.SND.WND, cb.cwnd)`. -/
def send_window (cb : TCB) : Nat := min cb.SND.WND cb.cwnd

/-- Member function `Connection::usable_window`: the difference is formed in `int64_t`,
clamped below by `0ll` and converted back to `uint32_t`. -/
def usable_window (cb : TCB) : Nat :=
  let x : Int := to_int64 (to_int64 (send_window cb) - to_int64 (flight_size cb))
  to_uint32 (max 0 x)

/-! ## Segments and the write queue

`packet.hpp` and `write_queue.hpp` are not among the sources; the two types
are represented by exactly the observations the functions below make of them. -/

/-- TCP header flags tested through `Packet::isset`. -/
inductive Flag where
  | NS | CWR | ECE | URG | ACK | PSH | RST | SYN | FIN
  deriving DecidableEq, Repr

/-- Modelled from the spec: an incoming TCP segment (class `Packet`, whose
header is not among the sources), reduced to what the connection reads from
it: `SEG.SEQ`, `SEG.ACK`, whether it carries a data payload, and its flags. -/
structure Packet where
  seq : Nat
  ack : Nat
  has_tcp_data : Bool
  isset : Flag → Bool

/-- Modelled from the spec: a write request, "(buffer, offset, length,
callback)"; the buffer contents and the callback play no part in the window
computations and are left out. -/
structure WriteRequest where
  offset : Nat
  length : Nat
  deriving DecidableEq, Repr

/-- Modelled from the spec: the write queue (class `Write_queue`, whose header
is not among the sources), "a FIFO of such requests". -/
structure Write_queue where
  q : List WriteRequest
  deriving DecidableEq, Repr

/-- Modelled from the spec: "`bytes_total` is the sum of their lengths". -/
def Write_queue.bytes_total (wq : Write_queue) : Nat :=
  (wq.q.map (fun r => r.length)).sum

/-- Modelled from the spec: "`bytes_remaining` is the sum of
`length − offset`". -/
def Write_queue.bytes_remaining (wq : Write_queue) : Nat :=
  (wq.q.map (fun r => r.length - r.offset)).sum

/-- Modelled from the spec: `Write_queue::has_remaining_requests`, which the
spec reads as `bytes_remaining > 0` in
"`has_doable_job() = bytes_remaining > 0 ∧ usable_window ≥ SMSS`". -/
def Write_queue.has_remaining_requests (wq : Write_queue) : Bool :=
  decide (0 < wq.bytes_remaining)

/-! ## The connection -/

/-- The part of `Connection` the modelled member functions read or write.
Default values are the default member initializers of the class. -/
structure Connection where
  /-- keeps track of all sequence variables -/
  cb : TCB
  /-- queue for write requests to process -/
  writeq : Write_queue
  /-- number of retransmission attempts on the packet first in RT-queue (`int8_t`) -/
  rtx_attempt_ : Int := 0
  /-- number of retransmitted SYN packets (`int8_t`) -/
  syn_rtx_ : Int := 0
  /-- whether the connection is in the TCP write queue -/
  queued_ : Bool
  /-- is fast recovery state -/
  fast_recovery_ : Bool := false
  /-- first partial ack seen -/
  reno_fpack_seen : Bool := false
  /-- limited transmit active -/
  limited_tx_ : Bool := true
  /-- number of current duplicate ACKs -/
  dup_acks_ : Nat := 0
  highest_ack_ : Nat := 0
  prev_highest_ack_ : Nat := 0
  last_acked_ts_ : Nat := 0
  /-- delayed ACK: number of segments received without ACKing -/
  dack_ : Nat := 0
  last_ack_sent_ : Nat
  deriving DecidableEq, Repr

/-- Member function `Connection::is_win_update(in, win)`. -/
def is_win_update (cb : TCB) (pkt : Packet) (win : Nat) : Bool :=
  decide (cb.SND.WND ≠ win) &&
    (decide (cb.SND.WL1 < pkt.seq) ||
      (decide (cb.SND.WL1 = pkt.seq) && decide (cb.SND.WL2 ≤ pkt.ack)))

/-- Member function `Connection::is_dup_ack(in, win)`. -/
def is_dup_ack (cb : TCB) (pkt : Packet) (win : Nat) : Bool :=
  decide (pkt.ack = cb.SND.UNA)
    && decide (0 < flight_size cb)
    && !pkt.has_tcp_data
    && decide (cb.SND.WND = win)
    && !pkt.isset Flag.SYN && !pkt.isset Flag.FIN

/-! ## Congestion control (Reno)

`Connection::SMSS()` is declared in the header but defined elsewhere; its
`uint16_t` result is the parameter `SMSS` of every function that calls it. -/

/-- Member function `Connection::reno_init_cwnd(segments)`: `cb.cwnd = segments*SMSS()`. The
product is formed in `size_t` and stored into the `uint32_t` field, which
keeps it modulo 2^32 whatever the width of `size_t`. -/
def reno_init_cwnd (SMSS : Nat) (segments : Nat) (cb : TCB) : TCB :=
  { cb with cwnd := to_uint32 (segments * SMSS : Nat) }

/-- Member function `Connection::reno_init_sshtresh`: `cb.ssthresh = cb.SND.WND`. -/
def reno_init_sshtresh (cb : TCB) : TCB :=
  { cb with ssthresh := cb.SND.WND }

/-- Member function `Connection::reno_init`. -/
def reno_init (SMSS : Nat) (cb : TCB) : TCB :=
  reno_init_sshtresh (reno_init_cwnd SMSS 3 cb)

/-- Member function `Connection::setup_congestion_control`. -/
def setup_congestion_control (SMSS : Nat) (cb : TCB) : TCB :=
  reno_init SMSS cb

/-- Member function `Connection::reno_increase_cwnd(const uint16_t n)`:
`cb.cwnd += std::min(n, SMSS())`. The argument is converted to the parameter
type `uint16_t` on the call, the minimum is taken of two `uint16_t` values and
the sum is taken in `uint32_t`. -/
def reno_increase_cwnd (SMSS : Nat) (n : Nat) (cb : TCB) : TCB :=
  { cb with cwnd := to_uint32 ((cb.cwnd : Int) + (min (to_uint16 (n : Int)) SMSS : Nat)) }

/-- Member function `Connection::reno_deflate_cwnd(n)`:
`cb.cwnd -= (n >= SMSS()) ? n-SMSS() : n`. Both arms of the conditional are
`int` after integer promotion; the compound subtraction is in `uint32_t`. -/
def reno_deflate_cwnd (SMSS : Nat) (n : Nat) (cb : TCB) : TCB :=
  let d : Int := if n ≥ SMSS then to_int32 ((n : Int) - (SMSS : Int)) else to_int32 (n : Int)
  { cb with cwnd := to_uint32 ((cb.cwnd : Int) - (to_uint32 d : Int)) }

/-- Member function `Connection::reno_full_ack(ACK)`: `ACK - 1 > cb.recover`, the subtraction
taken in `uint32_t`. -/
def reno_full_ack (cb : TCB) (ACK : Nat) : Bool :=
  decide (to_uint32 ((ACK : Int) - 1) > cb.recover)

/-! ## Connection level predicates -/

/-- Member function `Connection::rto_limit_reached`. -/
def rto_limit_reached (c : Connection) : Bool :=
  decide (c.rtx_attempt_ ≥ 15) || decide (c.syn_rtx_ ≥ 5)

/-- Member function `Connection::has_doable_job`. -/
def has_doable_job (SMSS : Nat) (c : Connection) : Bool :=
  c.writeq.has_remaining_requests && decide (usable_window c.cb ≥ SMSS)

/-- Member function `Connection::can_send`. -/
def can_send (SMSS : Nat) (c : Connection) : Bool :=
  decide (usable_window c.cb ≥ SMSS) && c.writeq.has_remaining_requests

/-- A connection as its constructor leaves the counters: every member with a
default member initializer holds that default. -/
def Connection.fresh (cb : TCB) (writeq : Write_queue) (queued : Bool)
    (last_ack_sent : Nat) : Connection :=
  { cb := cb, writeq := writeq, queued_ := queued, last_ack_sent_ := last_ack_sent }

/-! ## Sequence number comparison -/

/-- Modelled from the spec: strict form of "the relation `a ≤ b` means
`(int32)(a − b) ≤ 0`", the difference taken in `uint32_t` first. -/
def seq_lt (a b : Nat) : Bool :=
  decide (to_int32 (to_uint32 ((a : Int) - (b : Int)) : Int) < 0)

/-- Modelled from the spec: "the relation `a ≤ b` means `(int32)(a − b) ≤ 0`",
the difference taken in `uint32_t` first. -/
def seq_le (a b : Nat) : Bool :=
  decide (to_int32 (to_uint32 ((a : Int) - (b : Int)) : Int) ≤ 0)

/-- Two 32-bit values are less than half the sequence space apart:
`-2^31 ≤ a - b < 2^31` over the integers. -/
abbrev seq_near (a b : Nat) : Prop :=
  -2147483648 ≤ (a : Int) - (b : Int) ∧ (a : Int) - (b : Int) < 2147483648

/-- Modelled from the spec: the window update test of `is_win_update` with its
two order comparisons replaced by the signed-difference relation. -/
def is_win_update_seq (cb : TCB) (pkt : Packet) (win : Nat) : Bool :=
  decide (cb.SND.WND ≠ win) &&
    (seq_lt cb.SND.WL1 pkt.seq ||
      (decide (cb.SND.WL1 = pkt.seq) && seq_le cb.SND.WL2 pkt.ack))

/-- Modelled from the spec: the test of `reno_full_ack`, `ACK - 1 > recover`,
with the order comparison replaced by the signed-difference relation. -/
def reno_full_ack_seq (cb : TCB) (ACK : Nat) : Bool :=
  seq_lt cb.recover (to_uint32 ((ACK : Int) - 1))

/-- Member function `TCB::slow_start`: `cwnd < ssthresh`. -/
def TCB.slow_start (cb : TCB) : Bool := decide (cb.cwnd < cb.ssthresh)

/-! ## Configuration constants (`common.hpp`) -/

/-- Default size of the TCP window, `uint16_t {0xffff}`. -/
def default_window_size : Nat := 0xffff

/-- Window scaling factor, `uint8_t {5}`. -/
def default_window_scaling : Nat := 5

/-- Scaled window size, `uint32_t {8192 << default_window_scaling}`: the shift
is evaluated in `int` and the result stored in a `uint32_t`. -/
def default_ws_window_size : Nat :=
  to_uint32 (to_int32 ((8192 <<< default_window_scaling : Nat) : Int))

/-- Use of the timestamps option, `bool {true}`. -/
def default_timestamps : Bool := true

/-- Maximum size of a TCP segment, `uint16_t {536}`. -/
def default_mss : Nat := 536

/-- Maximum amount of half-open connections per port, `size_t {64}`. -/
def default_max_syn_backlog : Nat := 64

/-- A `std::chrono` duration: a tick count and the length of one tick in
milliseconds (1000 for `std::chrono::seconds`, 1 for
`std::chrono::milliseconds`). -/
structure Duration where
  count : Nat
  period_ms : Nat
  deriving DecidableEq, Repr

/-- The length of a duration in milliseconds. -/
def Duration.to_ms (d : Duration) : Nat := d.count * d.period_ms

/-- Maximum segment lifetime, `std::chrono::seconds {30}`. -/
def default_msl : Duration := { count := 30, period_ms := 1000 }

/-- Delayed ACK timeout, `std::chrono::milliseconds {40}`. -/
def default_dack_timeout : Duration := { count := 40, period_ms := 1 }

/-! ## Disconnect -/

/-- The enumeration `Disconnect::Reason`. -/
inductive Disconnect.Reason where
  | CLOSING | REFUSED | RESET
  deriving DecidableEq, Repr

/-- The integer value of an enumerator of `Disconnect::Reason`. -/
def Disconnect.Reason.value : Disconnect.Reason → Nat
  | .CLOSING => 0
  | .REFUSED => 1
  | .RESET => 2

/-- The struct `Disconnect`: a reason. -/
structure Disconnect where
  reason : Disconnect.Reason
  deriving DecidableEq, Repr

/-- The `switch` of `Disconnect::to_string` over the integer value of
`reason`, its `default` label included. -/
def Disconnect.reason_string (v : Nat) : String :=
  if v = Disconnect.Reason.CLOSING.value then "Connection closing"
  else if v = Disconnect.Reason.REFUSED.value then "Connection refused"
  else if v = Disconnect.Reason.RESET.value then "Connection reset"
  else "Unknown reason"

/-- Member function `Disconnect::to_string`. -/
def Disconnect.to_string (d : Disconnect) : String :=
  Disconnect.reason_string d.reason.value

/-- Conversion `Disconnect::operator Reason()`. -/
def Disconnect.to_Reason (d : Disconnect) : Disconnect.Reason := d.reason

/-- Comparison `Disconnect::operator ==`: `reason == dc.reason`. -/
def Disconnect.eq (d dc : Disconnect) : Bool := decide (d.reason = dc.reason)

/-! ## Filling packets and the receive buffer -/

/-- Member function `Connection::fill_packet(packet, data, n)`:
`packet.fill(data, std::min(n, (size_t)SMSS()))`. `Packet::fill` is declared
in a header that is not among the sources and is the parameter `fill`: it
receives the packet, the data and the number of bytes asked for, and returns
its result. -/
def fill_packet {P R : Type} (fill : P → List Nat → Nat → R) (SMSS : Nat)
    (packet : P) (data : List Nat) (n : Nat) : R :=
  fill packet data (min n SMSS)

/-- An outgoing packet with bounded payload room, used to instantiate the
`fill` parameter of `fill_packet`. -/
structure Payload_packet where
  payload : List Nat
  capacity : Nat
  deriving DecidableEq, Repr

/-- A fill operation that copies as many of the `length` bytes asked for as
fit into the remaining room, and returns the count with the new packet. -/
def Payload_packet.fill (p : Payload_packet) (data : List Nat) (length : Nat) :
    Nat × Payload_packet :=
  let total := min (min length data.length) (p.capacity - p.payload.length)
  (total, { p with payload := p.payload ++ data.take total })

/-- Byte addressed memory. -/
abbrev Memory := Nat → Nat

/-- The library function `memcpy(dst, src, n)` on byte addressed memory: the
`n` bytes starting at address `dst` receive the first `n` bytes of `src`. -/
def memcpy (mem : Memory) (dst : Nat) (src : List Nat) (n : Nat) : Memory :=
  fun a => if dst ≤ a ∧ a < dst + n then src.getD (a - dst) 0 else mem a

/-- Modelled from the spec: the active receive buffer (struct `ReadBuffer`,
whose header is not among the sources): the address of its storage, the
number of bytes already received into it and the number that still fit. -/
structure ReadBuffer where
  buffer : Nat
  remaining : Nat
  offset : Nat
  deriving DecidableEq, Repr

/-- Modelled from the spec: `ReadBuffer::pos`, the address where the next
received byte goes. -/
def ReadBuffer.pos (buf : ReadBuffer) : Nat := buf.buffer + buf.offset

/-- Member function `Connection::receive(ReadBuffer&, const uint8_t*, size_t)`:
`received = std::min(n, buf.remaining)`, `memcpy(buf.pos(), data, received)`,
`return received`. The result is the count and the memory after the copy. -/
def receive (mem : Memory) (buf : ReadBuffer) (data : List Nat) (n : Nat) :
    Nat × Memory :=
  let received := min n buf.remaining
  (received, memcpy mem buf.pos data received)

/-! ## Sending one segment and signalling events -/

/-- Member function `Connection::can_send_one`:
`send_window() >= SMSS() and writeq.has_remaining_requests()`. -/
def can_send_one (SMSS : Nat) (c : Connection) : Bool :=
  decide (send_window c.cb ≥ SMSS) && c.writeq.has_remaining_requests

/-- Conversion of an integer value to `size_t`, an unsigned type of `bits`
bits (32 or 64 according to the target). -/
def to_size_t (bits : Nat) (z : Int) : Nat := (z % ((2 ^ bits : Nat) : Int)).toNat

/-- The enumeration `Drop_reason`. -/
inductive Drop_reason where
  | NA | SEQ_OUT_OF_ORDER | ACK_NOT_SET | ACK_OUT_OF_ORDER | RST
  deriving DecidableEq, Repr

/-- The callback slots of `Connection` that the signalling functions test and
call. A slot is a delegate: empty (`none`) or holding a handler, identified
by a number. -/
structure Callbacks where
  on_connect_ : Option Nat
  on_disconnect_ : Option Nat
  on_error_ : Option Nat
  on_packet_dropped_ : Option Nat
  on_rtx_timeout_ : Option Nat
  on_close_ : Option Nat
  deriving DecidableEq, Repr

/-- One application of a delegate's call operator: `target` is what the slot
held when it was called, followed by the arguments passed (the connection
pointer `shared_from_this()` is left out). -/
inductive Invocation where
  | connect (target : Option Nat)
  | disconnect (target : Option Nat) (dc : Disconnect)
  | error (target : Option Nat) (what : String)
  | packet_dropped (target : Option Nat) (seq ack : Nat) (reason : Drop_reason)
  | rtx_timeout (target : Option Nat) (no_attempts : Nat) (rto_ms : Nat)
  deriving DecidableEq, Repr

/-- What a signalling function leaves behind: the connection and its callback
slots as the statements of the function leave them, and the delegate calls it
made, in order. What a called handler goes on to do is user code and no part
of the function. -/
structure Signalled where
  conn : Connection
  slots : Callbacks
  calls : List Invocation
  deriving DecidableEq, Repr

/-- Member function `Connection::signal_connect`:
`if(on_connect_) on_connect_(shared_from_this())`. -/
def signal_connect (c : Connection) (cbs : Callbacks) : Signalled :=
  if cbs.on_connect_.isSome then
    { conn := c, slots := cbs, calls := [Invocation.connect cbs.on_connect_] }
  else { conn := c, slots := cbs, calls := [] }

/-- Member function `Connection::signal_disconnect(reason)`:
`on_disconnect_(shared_from_this(), Disconnect{reason})`, with no test of the
slot. -/
def signal_disconnect (c : Connection) (cbs : Callbacks) (reason : Disconnect.Reason) :
    Signalled :=
  { conn := c, slots := cbs,
    calls := [Invocation.disconnect cbs.on_disconnect_ (Disconnect.mk reason)] }

/-- Member function `Connection::signal_error(error)`:
`if(on_error_) on_error_(error)`; the exception is represented by its
message. -/
def signal_error (c : Connection) (cbs : Callbacks) (error : String) : Signalled :=
  if cbs.on_error_.isSome then
    { conn := c, slots := cbs, calls := [Invocation.error cbs.on_error_ error] }
  else { conn := c, slots := cbs, calls := [] }

/-- Member function `Connection::signal_packet_dropped(packet, reason)`:
`if(on_packet_dropped_) on_packet_dropped_(packet, reason)`; the packet is
represented by its sequence and acknowledgement numbers. -/
def signal_packet_dropped (c : Connection) (cbs : Callbacks) (packet : Packet)
    (reason : Drop_reason) : Signalled :=
  if cbs.on_packet_dropped_.isSome then
    { conn := c, slots := cbs,
      calls := [Invocation.packet_dropped cbs.on_packet_dropped_ packet.seq packet.ack
        reason] }
  else { conn := c, slots := cbs, calls := [] }

/-- Member function `Connection::signal_rtx_timeout`:
`if(on_rtx_timeout_) on_rtx_timeout_(rtx_attempt_+1, rttm.rto_ms())`. The sum
is formed in `int` and converted to the `size_t` parameter `no_attempts`;
`rttm.rto_ms()` belongs to a class that is not among the sources and is the
parameter `rto_ms`. -/
def signal_rtx_timeout (size_bits : Nat) (rto_ms : Nat) (c : Connection)
    (cbs : Callbacks) : Signalled :=
  if cbs.on_rtx_timeout_.isSome then
    { conn := c, slots := cbs,
      calls := [Invocation.rtx_timeout cbs.on_rtx_timeout_
        (to_size_t size_bits (to_int32 (c.rtx_attempt_ + 1))) rto_ms] }
  else { conn := c, slots := cbs, calls := [] }

/-- Callback slots with every delegate empty. -/
def Callbacks.none_set : Callbacks :=
  { on_connect_ := none, on_disconnect_ := none, on_error_ := none,
    on_packet_dropped_ := none, on_rtx_timeout_ := none, on_close_ := none }

/-! ## Transitions between connection states

The segment handlers of the connection are declared in the header and defined
in `connection.cpp`, which is not among the sources. The two transitions below
follow the words of the spec and use the functions of the header wherever the
header has them. -/

/-- Modelled from the spec: transmission of a segment carrying `len` payload
bytes, "push the segment to transmit". `SND.NXT` advances by `len` in
`uint32_t`, which is what makes "`flight_size = SND.NXT − SND.UNA`" the number
of "bytes sent but not yet acknowledged". -/
def transmit (len : Nat) (cb : TCB) : TCB :=
  { cb with SND := { cb.SND with NXT := to_uint32 ((cb.SND.NXT : Int) + (len : Int)) } }

/-- Modelled from the spec: an accepted window update, "On acceptance,
`SND.WND = SEG.WND << SND.wind_shift`; update `WL1`, `WL2`". The argument
`win` is the calculated window `SEG.WND << SND.wind_shift`, the value
`is_win_update` is given. -/
def accept_win_update (pkt : Packet) (win : Nat) (cb : TCB) : TCB :=
  { cb with SND := { cb.SND with WND := win, WL1 := pkt.seq, WL2 := pkt.ack } }

/-- Modelled from the spec: some of the ways a connection state is reached.
A connection is set up by `reno_init` ("Initial `cwnd = 3·SMSS`") with nothing
in flight; it transmits a segment of "up to `min(SMSS, usable_window, ...)`"
bytes; it takes a window update that `is_win_update` accepts. Every state of
this relation is a reachable state; acknowledgements, retransmission and fast
recovery, which reach further states, are not part of it. -/
inductive Reachable (SMSS : Nat) : TCB → Prop where
  | setup (cb : TCB) (hr : cb.in_range) (h0 : cb.SND.UNA = cb.SND.NXT) :
      Reachable SMSS (reno_init SMSS cb)
  | segment_sent (cb : TCB) (len : Nat) (h : Reachable SMSS cb) (hpos : 0 < len)
      (hlen : len ≤ min SMSS (usable_window cb)) :
      Reachable SMSS (transmit len cb)
  | window_updated (cb : TCB) (pkt : Packet) (win : Nat) (h : Reachable SMSS cb)
      (hwin : is_uint32 win) (hacc : is_win_update cb pkt win = true) :
      Reachable SMSS (accept_win_update pkt win cb)

/-! ## Concrete states used to evaluate the definitions -/

/-- A TCB with the given send and congestion variables, everything else zero. -/
def mk_tcb (una nxt wnd wl1 wl2 cwnd ssthresh recover : Nat) : TCB :=
  { SND := { UNA := una, NXT := nxt, WND := wnd, UP := 0, WL1 := wl1, WL2 := wl2,
             MSS := 1460, wind_shift := 0, TS_OK := false },
    ISS := 0,
    RCV := { NXT := 0, WND := 0, UP := 0, rwnd := 0, wind_shift := 0 },
    IRS := 0, ssthresh := ssthresh, cwnd := cwnd, recover := recover, TS_recent := 0 }

/-- A segment with the given sequence and acknowledgement numbers, payload
indicator, and SYN and FIN flags; every other flag but ACK is clear. -/
def mk_packet (seq ack : Nat) (data syn fin : Bool) : Packet :=
  { seq := seq, ack := ack, has_tcp_data := data,
    isset := fun f =>
      match f with
      | Flag.SYN => syn
      | Flag.FIN => fin
      | Flag.ACK => true
      | _ => false }

/-- A connection set up with `SMSS = 1460` and nothing in flight:
`SND.UNA = SND.NXT = 1001`, `SND.WND = 65535`, so `cwnd = 4380`. -/
def sample_setup : TCB := reno_init 1460 (mk_tcb 1001 1001 65535 0 0 0 0 0)

/-- The state of `sample_setup` after one segment of 1460 bytes is sent. -/
def sample_sent : TCB := transmit 1460 sample_setup

/-- A segment from the peer with `SEG.SEQ = 2001` and `SEG.ACK = 1001`: it
acknowledges nothing new. -/
def sample_zero_window_segment : Packet := mk_packet 2001 1001 false false false

/-- The state of `sample_sent` after the peer has advertised a window of 0
in `sample_zero_window_segment`. -/
def sample_window_closed : TCB := accept_win_update sample_zero_window_segment 0 sample_sent

end net.tcp

namespace SHA1

/-! ## SHA-1 rolling checksum (`util/sha1.hpp`)

The class `SHA1` is exercised by `test/util/unit/sha1.cpp`; its header and
implementation are not among the sources. It is modelled as a streaming
SHA-1 (FIPS 180-4): bytes are `Nat` (read modulo 256), words are `Nat` below
2^32. -/

/-- Modelled from the spec: left rotation of a 32-bit word (helper of the
`SHA1` class, which is not among the sources). -/
def rol (value bits : Nat) : Nat :=
  ((value <<< bits) % 4294967296) ||| (value >>> (32 - bits))

/-- Modelled from the spec: addition of 32-bit words (helper of the `SHA1`
class, which is not among the sources). -/
def add32 (a b : Nat) : Nat := (a + b) % 4294967296

/-- Modelled from the spec: the five 32-bit words of a SHA-1 digest (member
`digest` of the `SHA1` class, which is not among the sources). -/
structure Digest where
  h0 : Nat
  h1 : Nat
  h2 : Nat
  h3 : Nat
  h4 : Nat
  deriving DecidableEq, Repr

/-- Modelled from the spec: the SHA-1 initial hash value (the `SHA1` class is
not among the sources). -/
def initial_digest : Digest :=
  { h0 := 0x67452301, h1 := 0xEFCDAB89, h2 := 0x98BADCFE, h3 := 0x10325476,
    h4 := 0xC3D2E1F0 }

/-- Modelled from the spec: the big-endian 32-bit words of a byte buffer, 16
words for a 64-byte block (helper of the `SHA1` class, which is not among the
sources). -/
def buffer_to_block : List Nat → List Nat
  | b0 :: b1 :: b2 :: b3 :: rest =>
      (((b0 % 256) <<< 24) ||| ((b1 % 256) <<< 16) ||| ((b2 % 256) <<< 8) ||| (b3 % 256))
        :: buffer_to_block rest
  | _ => []

/-- Modelled from the spec: the SHA-1 round function of round `t` (the `SHA1`
class is not among the sources). -/
def round_f (t b c d : Nat) : Nat :=
  if t < 20 then (b &&& c) ||| ((b ^^^ 4294967295) &&& d)
  else if t < 40 then b ^^^ c ^^^ d
  else if t < 60 then (b &&& c) ||| (b &&& d) ||| (c &&& d)
  else b ^^^ c ^^^ d

/-- Modelled from the spec: the SHA-1 round constant of round `t` (the `SHA1`
class is not among the sources). -/
def round_k (t : Nat) : Nat :=
  if t < 20 then 0x5A827999
  else if t < 40 then 0x6ED9EBA1
  else if t < 60 then 0x8F1BBCDC
  else 0xCA62C1D6

/-- Modelled from the spec: `rounds k t v w` runs rounds `t` to `t + k - 1` on
the working variables `v`, where `w` holds the sixteen schedule words from
round `t` on (the `SHA1` class is not among the sources). -/
def rounds : Nat → Nat → Digest → List Nat → Digest
  | 0, _, v, _ => v
  | k + 1, t, v, w =>
      let wt := w.getD 0 0
      let temp := add32 (add32 (add32 (add32 (rol v.h0 5) (round_f t v.h1 v.h2 v.h3)) v.h4)
        (round_k t)) wt
      let wn := rol (w.getD 13 0 ^^^ w.getD 8 0 ^^^ w.getD 2 0 ^^^ wt) 1
      rounds k (t + 1)
        { h0 := temp, h1 := v.h0, h2 := rol v.h1 30, h3 := v.h2, h4 := v.h3 }
        (w.drop 1 ++ [wn])

/-- Modelled from the spec: the SHA-1 compression of one 16-word block into
the digest (the `SHA1` class is not among the sources). -/
def transform (d : Digest) (block : List Nat) : Digest :=
  let v := rounds 80 0 d block
  { h0 := add32 d.h0 v.h0, h1 := add32 d.h1 v.h1, h2 := add32 d.h2 v.h2,
    h3 := add32 d.h3 v.h3, h4 := add32 d.h4 v.h4 }

/-- Modelled from the spec: the state of the rolling checksum `SHA1` (the
class is not among the sources): the running digest, the bytes of the block
being filled, and the number of blocks compressed so far. -/
structure Hasher where
  digest : Digest
  buffer : List Nat
  transforms : Nat
  deriving DecidableEq, Repr

/-- Modelled from the spec: the hasher as constructed, `SHA1()` (the class is
not among the sources). -/
def fresh : Hasher := { digest := initial_digest, buffer := [], transforms := 0 }

/-- Modelled from the spec: feeding one byte: it joins the buffer, and a full
64-byte buffer is compressed into the digest (the `SHA1` class is not among
the sources). -/
def update_byte (st : Hasher) (b : Nat) : Hasher :=
  let buf := st.buffer ++ [b]
  if buf.length = 64 then
    { digest := transform st.digest (buffer_to_block buf), buffer := [],
      transforms := st.transforms + 1 }
  else { st with buffer := buf }

/-- Modelled from the spec: `SHA1::update(data)` (the class is not among the
sources): the bytes are fed in order. -/
def update (st : Hasher) (data : List Nat) : Hasher := data.foldl update_byte st

/-- Modelled from the spec: the eight big-endian bytes of a 64-bit count
(helper of the `SHA1` class, which is not among the sources). -/
def be64 (n : Nat) : List Nat :=
  [(n >>> 56) % 256, (n >>> 48) % 256, (n >>> 40) % 256, (n >>> 32) % 256,
   (n >>> 24) % 256, (n >>> 16) % 256, (n >>> 8) % 256, n % 256]

/-- Modelled from the spec: the SHA-1 padding of a message of `len` bytes: the
byte `0x80`, zero bytes up to 56 modulo 64, and the length in bits (the `SHA1`
class is not among the sources). -/
def padding (len : Nat) : List Nat :=
  0x80 :: (List.replicate ((119 - len % 64) % 64) 0 ++ be64 (len * 8))

/-- Modelled from the spec: finalisation of the hasher: the padding for the
number of bytes fed is fed too, which leaves the digest of the message in the
state (the `SHA1` class is not among the sources). -/
def finalize (st : Hasher) : Digest :=
  (update st (padding (st.transforms * 64 + st.buffer.length))).digest

/-- The sixteen lowercase hexadecimal digits. -/
def hex_digits : List Char := "0123456789abcdef".data

/-- The lowercase hexadecimal digit of the low four bits of `n`. -/
def hex_digit (n : Nat) : Char := hex_digits.getD (n % 16) '0'

/-- The eight hexadecimal digits of a 32-bit word, most significant first. -/
def word_hex (w : Nat) : List Char :=
  [hex_digit (w >>> 28), hex_digit (w >>> 24), hex_digit (w >>> 20), hex_digit (w >>> 16),
   hex_digit (w >>> 12), hex_digit (w >>> 8), hex_digit (w >>> 4), hex_digit w]

/-- The four bytes of a 32-bit word, most significant first. -/
def word_bytes (w : Nat) : List Nat :=
  [(w >>> 24) % 256, (w >>> 16) % 256, (w >>> 8) % 256, w % 256]

/-- The digest written as hexadecimal text. -/
def digest_hex (d : Digest) : String :=
  String.mk (word_hex d.h0 ++ word_hex d.h1 ++ word_hex d.h2 ++ word_hex d.h3
    ++ word_hex d.h4)

/-- The digest written as raw bytes. -/
def digest_raw (d : Digest) : List Nat :=
  word_bytes d.h0 ++ word_bytes d.h1 ++ word_bytes d.h2 ++ word_bytes d.h3
    ++ word_bytes d.h4

/-- Modelled from the spec: `SHA1::as_hex()` (the class is not among the
sources): finalises, returns the digest as hexadecimal text and leaves the
hasher reset. -/
def as_hex (st : Hasher) : String × Hasher := (digest_hex (finalize st), fresh)

/-- Modelled from the spec: `SHA1::as_raw()` (the class is not among the
sources): finalises, returns the digest as raw bytes and leaves the hasher
reset. -/
def as_raw (st : Hasher) : List Nat × Hasher := (digest_raw (finalize st), fresh)

/-- Modelled from the spec: `SHA1::oneshot_hex(data)` (the class is not among
the sources): a new hasher, one `update`, `as_hex`. -/
def oneshot_hex (data : List Nat) : String := (as_hex (update fresh data)).1

/-- Modelled from the spec: `SHA1::oneshot_raw(data)` (the class is not among
the sources): a new hasher, one `update`, `as_raw`. -/
def oneshot_raw (data : List Nat) : List Nat := (as_raw (update fresh data)).1

/-- The bytes of a text of 8-bit characters. -/
def bytes_of (s : String) : List Nat := s.data.map (fun c => c.toNat % 256)

/-- FIPS 180-4 block iteration: `process_blocks k d msg` compresses the first
`k` 64-byte blocks of `msg` into `d`. -/
def process_blocks : Nat → Digest → List Nat → Digest
  | 0, d, _ => d
  | k + 1, d, msg =>
      process_blocks k (transform d (buffer_to_block (msg.take 64))) (msg.drop 64)

/-- FIPS 180-4 SHA-1 of a whole message: pad it, then compress its blocks in
order starting from the initial hash value. -/
def sha1 (msg : List Nat) : Digest :=
  process_blocks ((msg ++ padding msg.length).length / 64) initial_digest
    (msg ++ padding msg.length)

end SHA1

namespace base64

/-! ## Base64 (`util/base64.hpp`)

The function `base64::encode` is used by `test/util/unit/sha1.cpp`; its header
is not among the sources. It is modelled as the padded base64 of RFC 4648. -/

/-- The base64 alphabet of RFC 4648. -/
def alphabet : List Char :=
  "ABCDEFGHIJKLMNOPQRSTUVWXYZabcdefghijklmnopqrstuvwxyz0123456789+/".data

/-- The base64 character of the low six bits of `n`. -/
def enc (n : Nat) : Char := alphabet.getD (n % 64) 'A'

/-- Modelled from the spec: the characters of `base64::encode(data)` (the
function is not among the sources): four characters for every three bytes,
the last group padded with `=`. -/
def encode_chars : List Nat → List Char
  | a :: b :: c :: rest =>
      enc ((a % 256) >>> 2)
        :: enc ((((a % 4) <<< 4)) ||| ((b % 256) >>> 4))
        :: enc ((((b % 16) <<< 2)) ||| ((c % 256) >>> 6))
        :: enc (c % 64)
        :: encode_chars rest
  | [a, b] =>
      [enc ((a % 256) >>> 2), enc ((((a % 4) <<< 4)) ||| ((b % 256) >>> 4)),
       enc ((b % 16) <<< 2), '=']
  | [a] => [enc ((a % 256) >>> 2), enc ((a % 4) <<< 4), '=', '=']
  | [] => []

/-- Modelled from the spec: `base64::encode(data)` (the function is not among
the sources). -/
def encode (data : List Nat) : String := String.mk (encode_chars data)

end base64

/-- The WebSocket GUID of RFC 6455, `GUID` in `encode_hash`. -/
def websocket_GUID : String := "258EAFA5-E914-47DA-95CA-C5AB0DC85B11"

/-- Function `encode_hash(key)` of `test/util/unit/sha1.cpp`:
`base64::encode(SHA1::oneshot_raw(key + GUID))`. -/
def encode_hash (key : List Nat) : String :=
  base64.encode (SHA1.oneshot_raw (key ++ SHA1.bytes_of websocket_GUID))

/-! ## Statman (`src/util/statman.cpp`)

The header `<statman>` is not among the sources; the constants `MAX_NAME_LEN`
and `sizeof(name_)` it declares are parameters, and the layout of `Stat` is
represented by the members the constructor writes. -/

/-- The enumeration `Stat::Stat_type`; `invalid` stands for any value other
than the three enumerators, which the `default` labels handle. -/
inductive Stat.Stat_type where
  | FLOAT | UINT32 | UINT64
  | invalid (v : Nat)
  deriving DecidableEq, Repr

/-- One slot of the span: the members of `Stat`. The anonymous union of
`float f`, `uint32_t ui32` and `uint64_t ui64` is its 64-bit content `bits`,
of which the 32-bit members occupy the low half; `name_` is the text held by
the character array up to its terminator. -/
structure Stat where
  type_ : Stat.Stat_type
  index_into_span_ : Int
  bits : Nat
  name_ : String
  deriving DecidableEq, Repr

/-- The exceptions thrown by `Stat` and `Statman`. -/
inductive Stats_error where
  | Stats_exception (what : String)
  | Stats_out_of_memory
  deriving DecidableEq, Repr

/-- The text `name.c_str()` presents to `snprintf`: the characters of `name`
before the first NUL. -/
def c_str (name : String) : List Char := name.data.takeWhile (fun c => c ≠ Char.ofNat 0)

/-- The constructor `Stat::Stat(type, index_into_span, name)` run on the
storage `old`, as the placement `new` in `Statman::create` does: the result
says whether it threw, and the second component is the storage afterwards.
The member initialisers write `type_` and `index_into_span_` before the body
can throw. -/
def Stat.construct (MAX_NAME_LEN NAME_SIZE : Nat) (old : Stat) (type : Stat.Stat_type)
    (index_into_span : Int) (name : String) : Except Stats_error Unit × Stat :=
  let s1 : Stat := { old with type_ := type, index_into_span_ := index_into_span }
  if name.length > MAX_NAME_LEN then
    (Except.error (Stats_error.Stats_exception
      ("Creating stat: Name cannot be longer than " ++ toString MAX_NAME_LEN
        ++ " characters")), s1)
  else
    let stored : String := String.mk ((c_str name).take (NAME_SIZE - 1))
    match type with
    | Stat.Stat_type.UINT32 =>
        (Except.ok (), { s1 with bits := s1.bits / 4294967296 * 4294967296, name_ := stored })
    | Stat.Stat_type.UINT64 => (Except.ok (), { s1 with bits := 0, name_ := stored })
    | Stat.Stat_type.FLOAT =>
        (Except.ok (), { s1 with bits := s1.bits / 4294967296 * 4294967296, name_ := stored })
    | Stat.Stat_type.invalid _ =>
        (Except.error (Stats_error.Stats_exception "Creating stat: Invalid Stat_type"), s1)

/-- Member function `Stat::get_uint32`: the member `ui32`, or an exception when
the type is not `UINT32`. -/
def Stat.get_uint32 (s : Stat) : Except Stats_error Nat :=
  if s.type_ ≠ Stat.Stat_type.UINT32 then
    Except.error (Stats_error.Stats_exception "Get stat: Stat_type is not an uint32_t")
  else Except.ok (s.bits % 4294967296)

/-- Member function `Stat::get_uint64`: the member `ui64`, or an exception when
the type is not `UINT64`. -/
def Stat.get_uint64 (s : Stat) : Except Stats_error Nat :=
  if s.type_ ≠ Stat.Stat_type.UINT64 then
    Except.error (Stats_error.Stats_exception "Get stat: Stat_type is not an uint64_t")
  else Except.ok (s.bits % 18446744073709551616)

/-- Member function `Stat::get_float`, giving the 32 bits of the member `f`
(all zero for `0.0f`), or an exception when the type is not `FLOAT`. -/
def Stat.get_float (s : Stat) : Except Stats_error Nat :=
  if s.type_ ≠ Stat.Stat_type.FLOAT then
    Except.error (Stats_error.Stats_exception "Get stat: Stat_type is not a float")
  else Except.ok (s.bits % 4294967296)

/-- The value of a stat read through the getter of its own type. -/
def Stat.value (s : Stat) : Except Stats_error Nat :=
  match s.type_ with
  | Stat.Stat_type.UINT32 => s.get_uint32
  | Stat.Stat_type.UINT64 => s.get_uint64
  | Stat.Stat_type.FLOAT => s.get_float
  | Stat.Stat_type.invalid _ =>
      Except.error (Stats_error.Stats_exception "Invalid Stat_type")

/-- The members of `Statman`: the span `stats_` over the storage handed to the
constructor, the count `next_available_` of stats created, and `num_bytes_`. -/
structure Statman where
  stats_ : List Stat
  next_available_ : Nat
  num_bytes_ : Nat
  deriving DecidableEq, Repr

/-- The constructor `Statman::Statman(start, num_bytes)`: `storage` is the
memory at `start` read as an array of `Stat`, whatever it holds; the span
covers the first `num_bytes / sizeof(Stat)` of them. -/
def Statman.init (sizeof_Stat : Nat) (storage : List Stat) (num_bytes : Int) :
    Except Stats_error Statman :=
  if num_bytes < 0 then
    Except.error (Stats_error.Stats_exception
      "Creating Statman: A negative number of bytes has been given")
  else
    let num_stats_in_span := num_bytes.toNat / sizeof_Stat
    Except.ok { stats_ := storage.take num_stats_in_span, next_available_ := 0,
                num_bytes_ := sizeof_Stat * num_stats_in_span }

/-- Member function `Statman::create(type, name)`: the result or exception,
and the `Statman` afterwards. -/
def Statman.create (MAX_NAME_LEN NAME_SIZE : Nat) (sm : Statman)
    (type : Stat.Stat_type) (name : String) : Except Stats_error Stat × Statman :=
  let idx := sm.next_available_
  if h : idx < sm.stats_.length then
    let r := Stat.construct MAX_NAME_LEN NAME_SIZE sm.stats_[idx] type (idx : Int) name
    match r.1 with
    | Except.error e => (Except.error e, { sm with stats_ := sm.stats_.set idx r.2 })
    | Except.ok _ =>
        (Except.ok r.2,
          { sm with stats_ := sm.stats_.set idx r.2, next_available_ := idx + 1 })
  else (Except.error Stats_error.Stats_out_of_memory, sm)

/-- The loop of `Statman::get`: the first slot, from position `i` on, whose
name equals `name`, with its position in the span. -/
def Statman.get_loop (name : String) : List Stat → Nat → Option (Nat × Stat)
  | [], _ => none
  | s :: rest, i => if s.name_ = name then some (i, s) else Statman.get_loop name rest (i + 1)

/-- Member function `Statman::get(name)`: the slot returned, as its position
in the span and its content, or the exception. The loop runs over the whole
span `stats_`. -/
def Statman.get (sm : Statman) (name : String) : Except Stats_error (Nat × Stat) :=
  match Statman.get_loop name sm.stats_ 0 with
  | some r => Except.ok r
  | none => Except.error (Stats_error.Stats_exception
      ("No stat with name " ++ name ++ " exists"))

/-- A slot that holds an empty name and a zero value, as zero-filled storage
does. -/
def Stat.zeroed : Stat :=
  { type_ := Stat.Stat_type.FLOAT, index_into_span_ := 0, bits := 0, name_ := "" }

/-- A `Statman` over two such slots in which nothing has been created. -/
def Statman.two_unused : Statman :=
  { stats_ := [Stat.zeroed, Stat.zeroed], next_available_ := 0, num_bytes_ := 128 }

namespace x86

/-! ## ACPI tables (`src/arch/x86/acpi.cpp`)

Tables are read from byte addressed memory. The header `acpi.hpp`, which
declares the class and the record structs `LAPIC`, `IOAPIC` and `override_t`,
is not among the sources: a record copied into one of the vectors is
represented by the address it was copied from. -/

/-- Byte addressed memory; a byte is read modulo 256. -/
abbrev Memory := Nat → Nat

/-- Conversion of an integer value to `uint8_t`. -/
def to_uint8 (z : Int) : Nat := (z % 256).toNat

/-- The value of a byte read through a `char` pointer (`char` is signed on
x86). -/
def char_value (byte : Nat) : Int := (((byte % 256 : Nat) : Int) + 128) % 256 - 128

/-- The loop of `ACPI::checksum`:
`while (addr < end) { sum += *addr; addr++; }`, with `fuel` bounding the
number of times the condition is evaluated; the result is the final `sum`. -/
def ACPI.checksum_loop : Nat → Memory → Nat → Nat → Nat → Option Nat
  | 0, _, _, _, _ => none
  | fuel + 1, mem, addr, end_, sum =>
      if addr < end_ then
        ACPI.checksum_loop fuel mem (addr + 1) end_
          (to_uint8 ((sum : Int) + char_value (mem addr)))
      else some sum

/-- Member function `ACPI::checksum(addr, size)`. -/
def ACPI.checksum (fuel : Nat) (mem : Memory) (addr size : Nat) : Option Bool :=
  (ACPI.checksum_loop fuel mem addr (addr + size) 0).map (fun sum => decide (sum = 0))

/-- The sum of the `size` bytes of memory starting at `addr`. -/
def byte_sum (mem : Memory) : Nat → Nat → Nat
  | _, 0 => 0
  | addr, size + 1 => mem addr % 256 + byte_sum mem (addr + 1) size

/-- The members of `ACPI` that `walk_madt` writes. -/
structure ACPI where
  apic_base : Nat
  lapics : List Nat
  ioapics : List Nat
  overrides : List Nat
  deriving DecidableEq, Repr

/-- The fields of `MADTHeader` that `walk_madt` reads, and the size of the
struct. -/
structure MADTHeader where
  Length : Nat
  lapic_addr : Nat
  flags : Nat
  sizeof : Nat
  deriving DecidableEq, Repr

/-- The `switch (rec->type)` of `ACPI::walk_madt` for the record at `ptr`. -/
def ACPI.visit (st : ACPI) (ptr type : Nat) : ACPI :=
  match type with
  | 0 => { st with lapics := st.lapics ++ [ptr] }
  | 1 => { st with ioapics := st.ioapics ++ [ptr] }
  | 2 => { st with overrides := st.overrides ++ [ptr] }
  | _ => st

/-- The loop of `ACPI::walk_madt`: `while (len) { ... len -= rec->length;
ptr += rec->length; }` with `rec->type` the byte at `ptr` and `rec->length`
the byte after it; `fuel` bounds the number of times the condition is
evaluated. -/
def ACPI.walk_madt_loop : Nat → Memory → Int → Nat → ACPI → Option ACPI
  | 0, _, _, _, _ => none
  | fuel + 1, mem, len, ptr, st =>
      if len = 0 then some st
      else
        let type := mem ptr % 256
        let length := mem (ptr + 1) % 256
        ACPI.walk_madt_loop fuel mem (net.tcp.to_int32 (len - (length : Int)))
          (ptr + length) (ACPI.visit st ptr type)

/-- Member function `ACPI::walk_madt(addr)` for the table at `addr` with
header `hdr`: `len` starts as `hdr.Length - sizeof(MADTHeader)` converted to
`int`, `ptr` at the first record behind the header. -/
def ACPI.walk_madt (fuel : Nat) (mem : Memory) (addr : Nat) (hdr : MADTHeader)
    (st : ACPI) : Option ACPI :=
  ACPI.walk_madt_loop fuel mem
    (net.tcp.to_int32 (net.tcp.to_uint32 ((hdr.Length : Int) - (hdr.sizeof : Int)) : Int))
    (addr + hdr.sizeof) { st with apic_base := hdr.lapic_addr }

/-- The records `(type, length)` are laid out back to back from `ptr` on. -/
def laid_out (mem : Memory) : Nat → List (Nat × Nat) → Bool
  | _, [] => true
  | ptr, (type, length) :: rest =>
      decide (mem ptr % 256 = type) && decide (mem (ptr + 1) % 256 = length)
        && laid_out mem (ptr + length) rest

/-- The records of a table visited once each in table order, from `ptr` on. -/
def visit_all : ACPI → Nat → List (Nat × Nat) → ACPI
  | st, _, [] => st
  | st, ptr, (type, length) :: rest => visit_all (ACPI.visit st ptr type) (ptr + length) rest

/-- The addresses of the records of type `type`, in table order. -/
def addresses_of (type : Nat) : Nat → List (Nat × Nat) → List Nat
  | _, [] => []
  | ptr, (t, length) :: rest =>
      if t = type then ptr :: addresses_of type (ptr + length) rest
      else addresses_of type (ptr + length) rest

/-- Memory holding the given bytes from address `base` on, zero elsewhere. -/
def memory_of (base : Nat) (bytes : List Nat) : Memory :=
  fun a => if base ≤ a then bytes.getD (a - base) 0 else 0

/-- A sample MADT: the records behind a 44-byte header at address 1000. -/
def sample_madt : Memory :=
  memory_of 1044
    [0, 8, 0, 0, 1, 0, 0, 0,
     1, 12, 1, 0, 0, 0, 192, 254, 0, 0, 0, 0,
     2, 10, 0, 0, 2, 0, 0, 0, 0, 0,
     4, 6, 255, 0, 0, 1]

/-- The types and lengths of the records of `sample_madt`. -/
def sample_madt_records : List (Nat × Nat) := [(0, 8), (1, 12), (2, 10), (4, 6)]

/-- The header of `sample_madt`. -/
def sample_madt_header : MADTHeader :=
  { Length := 80, lapic_addr := 4276092928, flags := 1, sizeof := 44 }

end x86

namespace http

/-! ## HTTP client connection (`src/net/http/client_connection.cpp`)

Requests, responses and response handlers are identified by numbers. What a
member function does to collaborators that are not among the sources (the
timer, the base class `Connection`, the `Client`) is recorded as a list of
effects, in order. -/

/-- The error codes of `http::Error` that `Client_connection` uses. -/
inductive Error where
  | NONE | NO_REPLY | INVALID | TIMEOUT | CLOSING
  deriving DecidableEq, Repr

/-- The members of `Client_connection` (and `keep_alive_` of its base). -/
structure Client_connection where
  req_ : Option Nat
  res_ : Option Nat
  on_response_ : Option Nat
  timer_running : Bool
  timeout_dur_ : Nat
  keep_alive_ : Bool
  deriving DecidableEq, Repr

/-- An effect of a member function on its surroundings: `timer_.stop()`, a
call `callback(err, std::move(res_), *this)` of the response handler
`handler` with the connection as it is handed to the handler,
`Connection::end()`, or `client_.close(*this)`. -/
inductive Effect where
  | timer_stop
  | response (handler : Nat) (err : Error) (res : Option Nat) (conn : Client_connection)
  | end_connection
  | client_close
  deriving DecidableEq, Repr

/-- Member function `Client_connection::available`. -/
def Client_connection.available (s : Client_connection) : Bool :=
  decide (s.on_response_ = none) && s.keep_alive_

/-- Member function `Client_connection::occupied`. -/
def Client_connection.occupied (s : Client_connection) : Bool := !s.available

/-- The connection as the response handler receives it in `end_response` and
`close`: the handler has been moved out of `on_response_` and the slot reset,
the timer stopped, and `res_` moved into the handler's argument. -/
def Client_connection.handed_over (s : Client_connection) : Client_connection :=
  { s with on_response_ := none, timer_running := false, res_ := none }

/-- Member function `Client_connection::end_response(err)`. `Ensures
(on_response_)` fails on an empty slot (`none`). `user` is what running a
response handler does to the connection it is given. -/
def Client_connection.end_response
    (user : Nat → Error → Option Nat → Client_connection → Client_connection)
    (s : Client_connection) (err : Error) : Option (Client_connection × List Effect) :=
  match s.on_response_ with
  | none => none
  | some callback =>
      some (user callback err s.res_ s.handed_over,
        [Effect.timer_stop, Effect.response callback err s.res_ s.handed_over,
         Effect.end_connection])

/-- Member function `Client_connection::close()`. `user` is what running a
response handler does to the connection it is given. -/
def Client_connection.close
    (user : Nat → Error → Option Nat → Client_connection → Client_connection)
    (s : Client_connection) : Client_connection × List Effect :=
  match s.on_response_ with
  | some callback =>
      (user callback Error.CLOSING s.res_ s.handed_over,
        [Effect.timer_stop, Effect.response callback Error.CLOSING s.res_ s.handed_over,
         Effect.client_close])
  | none => (s, [Effect.client_close])

/-- The response handler calls among a list of effects. -/
def handler_calls (effects : List Effect) : List Effect :=
  effects.filter (fun e =>
    match e with
    | Effect.response _ _ _ _ => true
    | _ => false)

/-- A response handler that leaves the connection it is given unchanged. -/
def passive_user : Nat → Error → Option Nat → Client_connection → Client_connection :=
  fun _ _ _ conn => conn

/-- Member function `Client_connection::send(req, on_res, bufsize, timeout)`
with the `send_request` it ends in, as far as the members go: `Expects
(available())` and `Expects(on_response_ != nullptr)` fail with `none`;
`keep_alive` is what `send_request` reads from the Connection header of the
request. The calls on the stream are left out. -/
def Client_connection.send (s : Client_connection) (req : Nat) (keep_alive : Bool)
    (on_res : Option Nat) (timeout : Nat) : Option Client_connection :=
  if s.available then
    match on_res with
    | none => none
    | some handler =>
        some { s with req_ := some req, on_response_ := some handler,
                      timeout_dur_ := timeout,
                      timer_running := s.timer_running || decide (0 < timeout),
                      keep_alive_ := keep_alive }
  else none

/-- A response handler that answers by sending request 1 on the connection it
is given, with itself as the response handler. -/
def resending_user : Nat → Error → Option Nat → Client_connection → Client_connection :=
  fun handler _ _ conn => (Client_connection.send conn 1 true (some handler) 0).getD conn

/-- A connection waiting for the response to request 0 with handler 7. -/
def sample_pending : Client_connection :=
  { req_ := some 0, res_ := none, on_response_ := some 7, timer_running := true,
    timeout_dur_ := 1000, keep_alive_ := true }

end http

namespace hw

/-! ## PCI resource size (`src/hw/pci_device.cpp`) -/

/-- The static function `hw::pci_size(base, mask)` on an `unsigned long` of
`bits` bits: `size = mask & base; size &= ~(size - 1); return size`. The
subtraction wraps at zero and the complement is taken within `bits` bits. -/
def pci_size (bits : Nat) (base mask : Nat) : Nat :=
  let size := mask &&& base
  size &&& (2 ^ bits - 1 - (size + 2 ^ bits - 1) % 2 ^ bits)

end hw

namespace net.tcp

/-! ## Conversion lemmas -/

theorem to_uint32_lt (z : Int) : to_uint32 z < 4294967296 := by
  unfold to_uint32; omega

theorem to_uint32_cast (z : Int) : (to_uint32 z : Int) = z % 4294967296 := by
  unfold to_uint32; omega

theorem to_uint32_of_range (z : Int) (h0 : 0 ≤ z) (h1 : z < 4294967296) :
    (to_uint32 z : Int) = z := by
  unfold to_uint32; omega

theorem to_uint32_natCast (n : Nat) (h : n < 4294967296) : to_uint32 (n : Int) = n := by
  have := to_uint32_of_range (n : Int) (by omega) (by omega)
  omega

theorem to_int64_of_range (z : Int) (h0 : -9223372036854775808 ≤ z)
    (h1 : z < 9223372036854775808) : to_int64 z = z := by
  unfold to_int64; omega

theorem to_int32_of_range (z : Int) (h0 : -2147483648 ≤ z) (h1 : z < 2147483648) :
    to_int32 z = z := by
  unfold to_int32; omega

theorem flight_size_lt (cb : TCB) : flight_size cb < 4294967296 :=
  to_uint32_lt _

/-- The `int64_t` detour of `usable_window` never wraps: for 32-bit windows
the result is the clamped mathematical difference. -/
theorem usable_window_cast (cb : TCB) (hWND : is_uint32 cb.SND.WND)
    (hcwnd : is_uint32 cb.cwnd) :
    (usable_window cb : Int)
      = max 0 (((min cb.SND.WND cb.cwnd : Nat) : Int) - (flight_size cb : Int)) := by
  have hf := flight_size_lt cb
  have hs : send_window cb = min cb.SND.WND cb.cwnd := rfl
  unfold is_uint32 at hWND hcwnd
  unfold usable_window
  simp only []
  rw [hs, to_int64_of_range ((min cb.SND.WND cb.cwnd : Nat) : Int) (by omega) (by omega),
    to_int64_of_range (flight_size cb : Int) (by omega) (by omega),
    to_int64_of_range _ (by omega) (by omega),
    to_uint32_of_range _ (by omega) (by omega)]

/-! ## Windows -/

/-- C1: for all 32-bit `SND.WND` and `cwnd` (and any `SND.NXT`, `SND.UNA`),
`usable_window()` equals `max(0, min(SND.WND, cwnd) - flight_size())` computed
over the integers, where `flight_size()` is `SND.NXT - SND.UNA` modulo 2^32;
it is 0 whenever the flight size is at least `send_window()` (in particular
whenever it is at least `SND.WND`), and the value fits in 32 bits, so the
final conversion to `uint32_t` does not wrap. -/
theorem usable_window_eq_max (cb : TCB) (hWND : is_uint32 cb.SND.WND)
    (hcwnd : is_uint32 cb.cwnd) :
    (usable_window cb : Int)
        = max 0 (((min cb.SND.WND cb.cwnd : Nat) : Int) - (flight_size cb : Int))
      ∧ (flight_size cb : Int) = ((cb.SND.NXT : Int) - (cb.SND.UNA : Int)) % 4294967296
      ∧ (send_window cb ≤ flight_size cb → usable_window cb = 0)
      ∧ (cb.SND.WND ≤ flight_size cb → usable_window cb = 0)
      ∧ (flight_size cb < send_window cb →
          usable_window cb = send_window cb - flight_size cb)
      ∧ is_uint32 (usable_window cb) := by
  have h := usable_window_cast cb hWND hcwnd
  have hs : send_window cb = min cb.SND.WND cb.cwnd := rfl
  unfold is_uint32 at hWND hcwnd ⊢
  refine ⟨h, to_uint32_cast _, ?_, ?_, ?_, ?_⟩
  · intro hle; omega
  · intro hle; omega
  · intro hlt; omega
  · omega

/-- Evaluation of C1 on a connection with 3000 bytes in flight, a send window
of 65535 and a congestion window of 4380. -/
theorem usable_window_eq_max_witness :
    (usable_window (mk_tcb 1000 4000 65535 0 0 4380 65535 0) : Int)
        = max 0 (((min 65535 4380 : Nat) : Int)
            - (flight_size (mk_tcb 1000 4000 65535 0 0 4380 65535 0) : Int))
      ∧ usable_window (mk_tcb 1000 4000 65535 0 0 4380 65535 0) = 1380 :=
  ⟨(usable_window_eq_max (mk_tcb 1000 4000 65535 0 0 4380 65535 0)
      (by decide) (by decide)).1, by decide⟩

/-! ## Classification of incoming acknowledgements -/

/-- C2: `is_dup_ack(in, win)` returns true if and only if the segment's ACK
equals `SND.UNA`, `flight_size() > 0`, the segment carries no data payload,
`SND.WND` equals `win`, and neither SYN nor FIN is set. -/
theorem is_dup_ack_iff (cb : TCB) (pkt : Packet) (win : Nat) :
    is_dup_ack cb pkt win = true ↔
      (pkt.ack = cb.SND.UNA ∧ 0 < flight_size cb ∧ pkt.has_tcp_data = false ∧
        cb.SND.WND = win ∧ pkt.isset Flag.SYN = false ∧ pkt.isset Flag.FIN = false) := by
  unfold is_dup_ack
  simp only [Bool.and_eq_true, decide_eq_true_eq, Bool.not_eq_true']
  tauto

/-- C3, as stated, fails: with `SND.WL1 = 10 < SEG.SEQ = 20` the sequence
condition holds, yet `is_win_update` rejects the segment because the computed
window 1000 equals the current `SND.WND`. -/
theorem is_win_update_same_window_rejected :
    ¬ (is_win_update (mk_tcb 0 0 1000 10 0 4380 65535 0)
          (mk_packet 20 0 false false false) 1000 = true ↔
        ((mk_tcb 0 0 1000 10 0 4380 65535 0).SND.WL1
            < (mk_packet 20 0 false false false).seq ∨
          ((mk_tcb 0 0 1000 10 0 4380 65535 0).SND.WL1
              = (mk_packet 20 0 false false false).seq ∧
            (mk_tcb 0 0 1000 10 0 4380 65535 0).SND.WL2
              ≤ (mk_packet 20 0 false false false).ack))) := by
  decide

/-- C3 (amended): `is_win_update(in, win)` returns true exactly when the
computed window differs from the current one, `SND.WND != win`, and
`SND.WL1 < SEG.SEQ`, or `SND.WL1 == SEG.SEQ` and `SND.WL2 <= SEG.ACK`. -/
theorem is_win_update_iff (cb : TCB) (pkt : Packet) (win : Nat) :
    is_win_update cb pkt win = true ↔
      (cb.SND.WND ≠ win ∧
        (cb.SND.WL1 < pkt.seq ∨ (cb.SND.WL1 = pkt.seq ∧ cb.SND.WL2 ≤ pkt.ack))) := by
  unfold is_win_update
  simp only [Bool.and_eq_true, Bool.or_eq_true, decide_eq_true_eq]

/-! ## NewReno -/

/-- C4, evaluated where the code departs from it: with `recover = 10` the
acknowledgement `ACK = 11` satisfies `ACK >= recover + 1`, a full ACK, but
`reno_full_ack` computes `11 - 1 > 10` and returns false, so the segment is
handled as a partial ACK. -/
theorem reno_full_ack_at_recover_plus_one :
    reno_full_ack (mk_tcb 0 0 1000 0 0 4380 65535 10) 11 = false
      ∧ 11 ≥ (mk_tcb 0 0 1000 0 0 4380 65535 10).recover + 1
      ∧ ¬ (reno_full_ack (mk_tcb 0 0 1000 0 0 4380 65535 10) 11 = true ↔
            11 ≥ (mk_tcb 0 0 1000 0 0 4380 65535 10).recover + 1) := by
  decide

/-- The test `reno_full_ack` makes, for every 32-bit `ACK` and every
`recover`: it returns true exactly when `(ACK - 1) mod 2^32 > recover`. For
`ACK >= 1` that is `ACK >= recover + 2`, one more than the full ACK condition
`ACK >= recover + 1`; for `ACK = 0` the subtraction wraps to `2^32 - 1` and
the result is true unless `recover` is `2^32 - 1`. -/
theorem reno_full_ack_iff (cb : TCB) (ACK : Nat) (hACK : is_uint32 ACK) :
    (reno_full_ack cb ACK = true ↔
        ((ACK : Int) - 1) % 4294967296 > (cb.recover : Int))
      ∧ (1 ≤ ACK → (reno_full_ack cb ACK = true ↔ ACK ≥ cb.recover + 2))
      ∧ (1 ≤ ACK → (reno_full_ack cb ACK = false ↔ ACK < cb.recover + 2))
      ∧ (ACK = 0 → (reno_full_ack cb ACK = true ↔ cb.recover < 4294967295)) := by
  unfold is_uint32 at hACK
  have hc := to_uint32_cast ((ACK : Int) - 1)
  unfold reno_full_ack
  refine ⟨?_, ?_, ?_, ?_⟩
  · rw [decide_eq_true_eq]; omega
  · intro h1; rw [decide_eq_true_eq]; omega
  · intro h1; rw [decide_eq_false_iff_not]; omega
  · intro h0; rw [decide_eq_true_eq]; omega

/-- Evaluation of `reno_full_ack` at `ACK = 12`, `recover = 10`: true. -/
theorem reno_full_ack_iff_witness :
    reno_full_ack (mk_tcb 0 0 1000 0 0 4380 65535 10) 12 = true ↔
      12 ≥ (mk_tcb 0 0 1000 0 0 4380 65535 10).recover + 2 :=
  (reno_full_ack_iff (mk_tcb 0 0 1000 0 0 4380 65535 10) 12 (by decide)).2.1 (by decide)

/-- C5, as stated, fails: with `SMSS = 1460`, `cwnd = 10000` and `n = 100`
acknowledged bytes the new `cwnd` is 9900, not `10000 - 100 + 1460 = 11360`
(nor congruent to it modulo 2^32): no SMSS is added back when `n < SMSS`. -/
theorem reno_deflate_cwnd_small_ack :
    (reno_deflate_cwnd 1460 100 (mk_tcb 0 0 65535 0 0 10000 65535 0)).cwnd = 9900
      ∧ ¬ (((reno_deflate_cwnd 1460 100 (mk_tcb 0 0 65535 0 0 10000 65535 0)).cwnd : Int)
            = (((mk_tcb 0 0 65535 0 0 10000 65535 0).cwnd : Int) - 100 + 1460)
                % 4294967296)
      ∧ ¬ (((reno_deflate_cwnd 1460 100 (mk_tcb 0 0 65535 0 0 10000 65535 0)).cwnd : Int)
            = ((mk_tcb 0 0 65535 0 0 10000 65535 0).cwnd : Int) - 100 + 1460) := by
  decide

/-- C5 (amended): for 16-bit `n` and `SMSS` and 32-bit `cwnd`,
`reno_deflate_cwnd(n)` deflates `cwnd` by the amount acknowledged and adds
back one SMSS only when `n >= SMSS`: the new `cwnd` is `cwnd - n + SMSS` when
`n >= SMSS` and `cwnd - n` when `n < SMSS`, both in 32-bit unsigned
arithmetic, hence exactly so whenever the subtrahend does not exceed `cwnd`. -/
theorem reno_deflate_cwnd_eq (SMSS n : Nat) (cb : TCB) (hS : is_uint16 SMSS)
    (hn : is_uint16 n) (hc : is_uint32 cb.cwnd) :
    (SMSS ≤ n → ((reno_deflate_cwnd SMSS n cb).cwnd : Int)
        = ((cb.cwnd : Int) - n + SMSS) % 4294967296)
      ∧ (n < SMSS → ((reno_deflate_cwnd SMSS n cb).cwnd : Int)
        = ((cb.cwnd : Int) - n) % 4294967296)
      ∧ (SMSS ≤ n → n - SMSS ≤ cb.cwnd →
          (reno_deflate_cwnd SMSS n cb).cwnd = cb.cwnd + SMSS - n)
      ∧ (n < SMSS → n ≤ cb.cwnd → (reno_deflate_cwnd SMSS n cb).cwnd = cb.cwnd - n) := by
  unfold is_uint16 at hS hn
  unfold is_uint32 at hc
  have hge : SMSS ≤ n → (reno_deflate_cwnd SMSS n cb).cwnd
      = to_uint32 ((cb.cwnd : Int) - ((n : Int) - (SMSS : Int))) := by
    intro h
    unfold reno_deflate_cwnd
    simp only [ge_iff_le, h, if_true]
    rw [to_int32_of_range _ (by omega) (by omega),
      to_uint32_of_range _ (by omega) (by omega)]
  have hlt : n < SMSS → (reno_deflate_cwnd SMSS n cb).cwnd
      = to_uint32 ((cb.cwnd : Int) - (n : Int)) := by
    intro h
    have h' : ¬ SMSS ≤ n := by omega
    unfold reno_deflate_cwnd
    simp only [ge_iff_le, h', if_false]
    rw [to_int32_of_range _ (by omega) (by omega),
      to_uint32_of_range _ (by omega) (by omega)]
  refine ⟨?_, ?_, ?_, ?_⟩
  · intro h
    rw [hge h, to_uint32_cast]
    congr 1; ring
  · intro h
    rw [hlt h, to_uint32_cast]
  · intro h h2
    have := to_uint32_of_range ((cb.cwnd : Int) - ((n : Int) - (SMSS : Int)))
      (by omega) (by omega)
    rw [hge h]; omega
  · intro h h2
    have := to_uint32_of_range ((cb.cwnd : Int) - (n : Int)) (by omega) (by omega)
    rw [hlt h]; omega

/-- Evaluation of the amended C5 with `SMSS = 1460`, `cwnd = 10000` and
`n = 2000`: the window becomes `10000 + 1460 - 2000 = 9460`. -/
theorem reno_deflate_cwnd_eq_witness :
    (reno_deflate_cwnd 1460 2000 (mk_tcb 0 0 65535 0 0 10000 65535 0)).cwnd
      = (mk_tcb 0 0 65535 0 0 10000 65535 0).cwnd + 1460 - 2000 :=
  (reno_deflate_cwnd_eq 1460 2000 (mk_tcb 0 0 65535 0 0 10000 65535 0)
    (by decide) (by decide) (by decide)).2.2.1 (by decide) (by decide)

theorem to_uint16_of_lt (n : Nat) (h : n < 65536) : to_uint16 (n : Int) = n := by
  unfold to_uint16; omega

theorem to_uint16_natCast (n : Nat) : to_uint16 (n : Int) = n % 65536 := by
  unfold to_uint16; omega

/-- The value `reno_increase_cwnd` stores, as a natural number. -/
theorem reno_increase_cwnd_cwnd (SMSS n : Nat) (cb : TCB) :
    (reno_increase_cwnd SMSS n cb).cwnd = (cb.cwnd + min (n % 65536) SMSS) % 4294967296 := by
  have hdef : (reno_increase_cwnd SMSS n cb).cwnd
      = to_uint32 ((cb.cwnd : Int) + ((min (to_uint16 (n : Int)) SMSS : Nat) : Int)) := rfl
  have h := to_uint32_cast ((cb.cwnd : Int) + ((min (to_uint16 (n : Int)) SMSS : Nat) : Int))
  rw [hdef]
  rw [to_uint16_natCast] at h ⊢
  omega

/-- C6, as stated, fails: with `SMSS = 1460`, `cwnd = 4294967000` and `n = 1000`
newly acknowledged bytes the sum `cwnd + min(n, SMSS) = 4294968000` does not
fit the 32-bit field and `reno_increase_cwnd` leaves `cwnd = 704`, below the
old `cwnd`. With `cwnd = 10000` and `n = 65636`, a count the `uint16_t`
parameter cannot hold, the window grows by `65636 mod 2^16 = 100`, not by
`min(65636, 1460) = 1460`. -/
theorem reno_increase_cwnd_wraps :
    (reno_increase_cwnd 1460 1000 (mk_tcb 0 0 65535 0 0 4294967000 65535 0)).cwnd = 704
      ∧ ¬ ((reno_increase_cwnd 1460 1000 (mk_tcb 0 0 65535 0 0 4294967000 65535 0)).cwnd
            = (mk_tcb 0 0 65535 0 0 4294967000 65535 0).cwnd + min 1000 1460)
      ∧ (reno_increase_cwnd 1460 65636 (mk_tcb 0 0 65535 0 0 10000 65535 0)).cwnd = 10100
      ∧ ¬ ((reno_increase_cwnd 1460 65636 (mk_tcb 0 0 65535 0 0 10000 65535 0)).cwnd
            = (mk_tcb 0 0 65535 0 0 10000 65535 0).cwnd + min 65636 1460) := by
  decide

/-- C6 (amended): for every `n` that fits the `uint16_t` parameter and every
32-bit `cwnd`, `reno_increase_cwnd(n)` sets `cwnd` to
`(cwnd + min(n, SMSS)) mod 2^32`: to `cwnd + min(n, SMSS)` when that sum fits
in 32 bits, and to `cwnd + min(n, SMSS) - 2^32`, below the old `cwnd`, when it
does not. In either case the new `cwnd` is at most `cwnd + min(n, SMSS)`, so
one call never grows `cwnd` by more than one SMSS. -/
theorem reno_increase_cwnd_eq (SMSS n : Nat) (cb : TCB) (hn : is_uint16 n)
    (hc : is_uint32 cb.cwnd) :
    (reno_increase_cwnd SMSS n cb).cwnd = (cb.cwnd + min n SMSS) % 4294967296
      ∧ (cb.cwnd + min n SMSS < 4294967296 →
          (reno_increase_cwnd SMSS n cb).cwnd = cb.cwnd + min n SMSS)
      ∧ (4294967296 ≤ cb.cwnd + min n SMSS →
          (reno_increase_cwnd SMSS n cb).cwnd = cb.cwnd + min n SMSS - 4294967296
            ∧ (reno_increase_cwnd SMSS n cb).cwnd < cb.cwnd)
      ∧ (reno_increase_cwnd SMSS n cb).cwnd ≤ cb.cwnd + min n SMSS
      ∧ (reno_increase_cwnd SMSS n cb).cwnd ≤ cb.cwnd + SMSS := by
  unfold is_uint16 at hn
  unfold is_uint32 at hc
  have h := reno_increase_cwnd_cwnd SMSS n cb
  rw [Nat.mod_eq_of_lt hn] at h
  rw [h]
  refine ⟨rfl, ?_, ?_, ?_, ?_⟩
  · intro hfit; omega
  · intro hov; omega
  · omega
  · omega

/-- Evaluation of the amended C6 with `SMSS = 1460`, `cwnd = 4380` and
`n = 1000`: the window becomes `4380 + 1000 = 5380`. -/
theorem reno_increase_cwnd_eq_witness :
    (reno_increase_cwnd 1460 1000 (mk_tcb 0 0 65535 0 0 4380 65535 0)).cwnd
      = (mk_tcb 0 0 65535 0 0 4380 65535 0).cwnd + min 1000 1460 :=
  (reno_increase_cwnd_eq 1460 1000 (mk_tcb 0 0 65535 0 0 4380 65535 0)
    (by decide) (by decide)).2.1 (by decide)

/-- C7: after `reno_init()` (and so after `setup_congestion_control()`), for
a 16-bit SMSS and every prior TCB, `cwnd` equals `3 * SMSS`, `ssthresh` equals
the current `SND.WND`, and every other TCB field is unchanged. -/
theorem reno_init_eq (SMSS : Nat) (cb : TCB) (hS : is_uint16 SMSS) :
    (reno_init SMSS cb).cwnd = 3 * SMSS
      ∧ (reno_init SMSS cb).ssthresh = cb.SND.WND
      ∧ reno_init SMSS cb = { cb with cwnd := 3 * SMSS, ssthresh := cb.SND.WND }
      ∧ (reno_init SMSS cb).SND = cb.SND ∧ (reno_init SMSS cb).ISS = cb.ISS
      ∧ (reno_init SMSS cb).RCV = cb.RCV ∧ (reno_init SMSS cb).IRS = cb.IRS
      ∧ (reno_init SMSS cb).recover = cb.recover
      ∧ (reno_init SMSS cb).TS_recent = cb.TS_recent
      ∧ setup_congestion_control SMSS cb = reno_init SMSS cb := by
  unfold is_uint16 at hS
  have h3 : to_uint32 ((3 * SMSS : Nat) : Int) = 3 * SMSS :=
    to_uint32_natCast (3 * SMSS) (by omega)
  have hdef : reno_init SMSS cb
      = { cb with cwnd := to_uint32 ((3 * SMSS : Nat) : Int), ssthresh := cb.SND.WND } := rfl
  rw [hdef, h3]
  exact ⟨rfl, rfl, rfl, rfl, rfl, rfl, rfl, rfl, rfl, by rw [← h3]; rfl⟩

/-- Evaluation of C7 with `SMSS = 1460` on a TCB whose send window is 29200:
`cwnd` becomes 4380 and `ssthresh` 29200. -/
theorem reno_init_eq_witness :
    (reno_init 1460 (mk_tcb 1000 1000 29200 0 0 0 0 0)).cwnd = 3 * 1460
      ∧ (reno_init 1460 (mk_tcb 1000 1000 29200 0 0 0 0 0)).ssthresh
          = (mk_tcb 1000 1000 29200 0 0 0 0 0).SND.WND :=
  ⟨(reno_init_eq 1460 (mk_tcb 1000 1000 29200 0 0 0 0 0) (by decide)).1,
   (reno_init_eq 1460 (mk_tcb 1000 1000 29200 0 0 0 0 0) (by decide)).2.1⟩

/-! ## Retransmission limit and write queue -/

/-- C8: `rto_limit_reached()` returns true exactly when `rtx_attempt_ >= 15`
or `syn_rtx_ >= 5`; it is false whenever both counters are 0, in particular on
a freshly constructed connection, whose counters are 0 by their default
member initializers. -/
theorem rto_limit_reached_iff :
    (∀ c : Connection,
        rto_limit_reached c = true ↔ (c.rtx_attempt_ ≥ 15 ∨ c.syn_rtx_ ≥ 5))
      ∧ (∀ (cb : TCB) (wq : Write_queue) (queued : Bool) (last_ack_sent : Nat),
          (Connection.fresh cb wq queued last_ack_sent).rtx_attempt_ = 0
            ∧ (Connection.fresh cb wq queued last_ack_sent).syn_rtx_ = 0
            ∧ rto_limit_reached (Connection.fresh cb wq queued last_ack_sent) = false)
      ∧ (∀ c : Connection, c.rtx_attempt_ = 0 → c.syn_rtx_ = 0 →
          rto_limit_reached c = false) := by
  refine ⟨?_, ?_, ?_⟩
  · intro c
    unfold rto_limit_reached
    simp only [Bool.or_eq_true, decide_eq_true_eq]
  · intro cb wq queued last_ack_sent
    exact ⟨rfl, rfl, rfl⟩
  · intro c h1 h2
    unfold rto_limit_reached
    rw [h1, h2]
    decide

/-- C9: for every connection state, `has_doable_job()` returns true exactly
when the write queue still has bytes remaining to send and
`usable_window() >= SMSS()`. -/
theorem has_doable_job_iff (SMSS : Nat) (c : Connection) :
    has_doable_job SMSS c = true ↔
      (0 < c.writeq.bytes_remaining ∧ usable_window c.cb ≥ SMSS) := by
  unfold has_doable_job Write_queue.has_remaining_requests
  simp only [Bool.and_eq_true, decide_eq_true_eq]

/-- C10: for all 32-bit `SND.NXT` and `SND.UNA`, `flight_size()` equals
`(SND.NXT - SND.UNA) mod 2^32`: the plain difference when `SND.UNA <= SND.NXT`,
and `SND.NXT + 2^32 - SND.UNA` when `SND.NXT` has wrapped and `SND.UNA` has
not. Whenever the stored `SND.NXT` is the 32-bit image of a position `nxt`
that is ahead of `SND.UNA` by fewer than 2^32 bytes, the result is the number
of bytes in flight, `nxt - SND.UNA`. -/
theorem flight_size_mod (cb : TCB) (hNXT : is_uint32 cb.SND.NXT)
    (hUNA : is_uint32 cb.SND.UNA) :
    (flight_size cb : Int) = ((cb.SND.NXT : Int) - (cb.SND.UNA : Int)) % 4294967296
      ∧ (cb.SND.UNA ≤ cb.SND.NXT → flight_size cb = cb.SND.NXT - cb.SND.UNA)
      ∧ (cb.SND.NXT < cb.SND.UNA →
          flight_size cb = cb.SND.NXT + 4294967296 - cb.SND.UNA)
      ∧ (∀ nxt : Nat, cb.SND.UNA ≤ nxt → nxt - cb.SND.UNA < 4294967296 →
          cb.SND.NXT = nxt % 4294967296 → flight_size cb = nxt - cb.SND.UNA) := by
  unfold is_uint32 at hNXT hUNA
  have h := to_uint32_cast ((cb.SND.NXT : Int) - (cb.SND.UNA : Int))
  have hdef : flight_size cb = to_uint32 ((cb.SND.NXT : Int) - (cb.SND.UNA : Int)) := rfl
  rw [hdef]
  refine ⟨h, ?_, ?_, ?_⟩
  · intro hle; omega
  · intro hlt; omega
  · intro nxt hle hlt heq; omega

/-- Evaluation of C10 across the wrap: `SND.UNA = 4294967000` and
`SND.NXT = 200` (the 32-bit image of `4294967496`) give 496 bytes in flight. -/
theorem flight_size_mod_witness :
    flight_size (mk_tcb 4294967000 200 65535 0 0 4380 65535 0)
        = (mk_tcb 4294967000 200 65535 0 0 4380 65535 0).SND.NXT + 4294967296
            - (mk_tcb 4294967000 200 65535 0 0 4380 65535 0).SND.UNA
      ∧ flight_size (mk_tcb 4294967000 200 65535 0 0 4380 65535 0) = 496 :=
  ⟨(flight_size_mod (mk_tcb 4294967000 200 65535 0 0 4380 65535 0)
      (by decide) (by decide)).2.2.1 (by decide), by decide⟩

/-! ## Wraparound of sequence number comparisons -/

/-- The signed difference of two 32-bit values, by cases on their distance. -/
theorem signed_diff_cases (a b : Nat) (ha : is_uint32 a) (hb : is_uint32 b) :
    (seq_near a b →
        to_int32 (to_uint32 ((a : Int) - (b : Int)) : Int) = (a : Int) - (b : Int))
      ∧ (2147483648 ≤ (a : Int) - (b : Int) →
        to_int32 (to_uint32 ((a : Int) - (b : Int)) : Int)
          = (a : Int) - (b : Int) - 4294967296)
      ∧ ((a : Int) - (b : Int) < -2147483648 →
        to_int32 (to_uint32 ((a : Int) - (b : Int)) : Int)
          = (a : Int) - (b : Int) + 4294967296) := by
  unfold is_uint32 at ha hb
  have hc := to_uint32_cast ((a : Int) - (b : Int))
  have hlt := to_uint32_lt ((a : Int) - (b : Int))
  generalize to_uint32 ((a : Int) - (b : Int)) = u at hc hlt
  unfold to_int32
  refine ⟨?_, ?_, ?_⟩
  · rintro ⟨h1, h2⟩; omega
  · intro h; omega
  · intro h; omega

/-- Plain `<` on 32-bit values agrees with the signed-difference relation
exactly when the operands are less than 2^31 apart. -/
theorem lt_eq_seq_lt_iff (a b : Nat) (ha : is_uint32 a) (hb : is_uint32 b) :
    decide (a < b) = seq_lt a b ↔ seq_near a b := by
  obtain ⟨h1, h2, h3⟩ := signed_diff_cases a b ha hb
  unfold is_uint32 at ha hb
  unfold seq_lt
  rw [decide_eq_decide]
  by_cases hn : seq_near a b
  · rw [h1 hn]
    constructor
    · intro _; exact hn
    · intro _; omega
  · constructor
    · intro h
      exfalso
      by_cases hbig : 2147483648 ≤ (a : Int) - (b : Int)
      · rw [h2 hbig] at h; omega
      · have hsm : (a : Int) - (b : Int) < -2147483648 := by
          unfold seq_near at hn; omega
        rw [h3 hsm] at h; omega
    · intro h; exact absurd h hn

/-- Plain `<=` on 32-bit values agrees with the signed-difference relation
exactly when the operands are less than 2^31 apart. -/
theorem le_eq_seq_le_iff (a b : Nat) (ha : is_uint32 a) (hb : is_uint32 b) :
    decide (a ≤ b) = seq_le a b ↔ seq_near a b := by
  obtain ⟨h1, h2, h3⟩ := signed_diff_cases a b ha hb
  unfold is_uint32 at ha hb
  unfold seq_le
  rw [decide_eq_decide]
  by_cases hn : seq_near a b
  · rw [h1 hn]
    constructor
    · intro _; exact hn
    · intro _; omega
  · constructor
    · intro h
      exfalso
      by_cases hbig : 2147483648 ≤ (a : Int) - (b : Int)
      · rw [h2 hbig] at h; omega
      · have hsm : (a : Int) - (b : Int) < -2147483648 := by
          unfold seq_near at hn; omega
        rw [h3 hsm] at h; omega
    · intro h; exact absurd h hn

/-- C11, as stated, fails: with `SND.WL1 = 4294967280` and `SEG.SEQ = 16` the
signed-difference relation has `SND.WL1 < SEG.SEQ` (the difference is -32 as
an `int32`), but the comparison made by `is_win_update` is the plain unsigned
one, which is false, so the window update is rejected where the
signed-difference test accepts it. -/
theorem is_win_update_not_wraparound_safe :
    ¬ (decide ((mk_tcb 0 0 1000 4294967280 0 4380 65535 0).SND.WL1
              < (mk_packet 16 0 false false false).seq)
          = seq_lt (mk_tcb 0 0 1000 4294967280 0 4380 65535 0).SND.WL1
              (mk_packet 16 0 false false false).seq)
      ∧ is_win_update (mk_tcb 0 0 1000 4294967280 0 4380 65535 0)
          (mk_packet 16 0 false false false) 2000 = false
      ∧ is_win_update_seq (mk_tcb 0 0 1000 4294967280 0 4380 65535 0)
          (mk_packet 16 0 false false false) 2000 = true
      ∧ reno_full_ack (mk_tcb 0 0 1000 0 0 4380 65535 4294967280) 16 = false
      ∧ reno_full_ack_seq (mk_tcb 0 0 1000 0 0 4380 65535 4294967280) 16 = true := by
  decide

/-- C11 (amended): the order comparisons made by `is_win_update`
(`SND.WL1 < SEG.SEQ`, `SND.WL2 <= SEG.ACK`) and by `reno_full_ack`
(`ACK - 1 > recover`) are plain unsigned 32-bit comparisons. For 32-bit
operands each gives the same result as the signed-difference relation exactly
when the operands are less than 2^31 apart (`-2^31 <= a - b < 2^31`); under
that condition `is_win_update` and `reno_full_ack` return what their
signed-difference counterparts return. -/
theorem seq_compare_agree_iff_near (cb : TCB) (pkt : Packet) (win ACK : Nat)
    (hWL1 : is_uint32 cb.SND.WL1) (hWL2 : is_uint32 cb.SND.WL2)
    (hseq : is_uint32 pkt.seq) (hack : is_uint32 pkt.ack)
    (hrec : is_uint32 cb.recover) :
    (decide (cb.SND.WL1 < pkt.seq) = seq_lt cb.SND.WL1 pkt.seq
        ↔ seq_near cb.SND.WL1 pkt.seq)
      ∧ (decide (cb.SND.WL2 ≤ pkt.ack) = seq_le cb.SND.WL2 pkt.ack
        ↔ seq_near cb.SND.WL2 pkt.ack)
      ∧ (reno_full_ack cb ACK = reno_full_ack_seq cb ACK
        ↔ seq_near cb.recover (to_uint32 ((ACK : Int) - 1)))
      ∧ (seq_near cb.SND.WL1 pkt.seq → seq_near cb.SND.WL2 pkt.ack →
          is_win_update cb pkt win = is_win_update_seq cb pkt win) := by
  have h1 := lt_eq_seq_lt_iff cb.SND.WL1 pkt.seq hWL1 hseq
  have h2 := le_eq_seq_le_iff cb.SND.WL2 pkt.ack hWL2 hack
  have h3 := lt_eq_seq_lt_iff cb.recover (to_uint32 ((ACK : Int) - 1)) hrec
    (to_uint32_lt _)
  refine ⟨h1, h2, ?_, ?_⟩
  · have hdef : reno_full_ack cb ACK
        = decide (cb.recover < to_uint32 ((ACK : Int) - 1)) := rfl
    rw [hdef]
    exact h3
  · intro n1 n2
    unfold is_win_update is_win_update_seq
    rw [h1.mpr n1, h2.mpr n2]

/-- Evaluation of the amended C11 on a segment close to the last window
update (`SND.WL1 = 1000`, `SEG.SEQ = 2000`, `SND.WL2 = 500`, `SEG.ACK = 600`):
the plain and the signed-difference test agree. -/
theorem seq_compare_agree_iff_near_witness :
    is_win_update (mk_tcb 0 0 1000 1000 500 4380 65535 0)
        (mk_packet 2000 600 false false false) 2000
      = is_win_update_seq (mk_tcb 0 0 1000 1000 500 4380 65535 0)
        (mk_packet 2000 600 false false false) 2000 :=
  (seq_compare_agree_iff_near (mk_tcb 0 0 1000 1000 500 4380 65535 0)
    (mk_packet 2000 600 false false false) 2000 0
    (by decide) (by decide) (by decide) (by decide) (by decide)).2.2.2
    (by decide) (by decide)

/-! ## Slow start and configuration constants -/

/-- C12: `TCB::slow_start()` returns true exactly when `cwnd < ssthresh` and
false exactly when `cwnd >= ssthresh`, so every TCB is in exactly one of slow
start and congestion avoidance. -/
theorem slow_start_iff (cb : TCB) :
    (cb.slow_start = true ↔ cb.cwnd < cb.ssthresh)
      ∧ (cb.slow_start = false ↔ cb.cwnd ≥ cb.ssthresh)
      ∧ ((cb.cwnd < cb.ssthresh ∧ ¬ cb.cwnd ≥ cb.ssthresh)
          ∨ (¬ cb.cwnd < cb.ssthresh ∧ cb.cwnd ≥ cb.ssthresh)) := by
  unfold TCB.slow_start
  refine ⟨?_, ?_, ?_⟩
  · rw [decide_eq_true_eq]
  · rw [decide_eq_false_iff_not]; omega
  · omega

/-- C13: `default_ws_window_size` equals `8192 << default_window_scaling`
`= 8192 << 5 = 262144`; the shift overflows neither `int` nor the `uint32_t`
it is stored in, and the advertisement `262144 >> 5 = 8192` fits in 16 bits,
so clamping it to 16 bits changes nothing. -/
theorem default_ws_window_size_eq :
    default_ws_window_size = 8192 <<< default_window_scaling
      ∧ default_window_scaling = 5
      ∧ default_ws_window_size = 262144
      ∧ (8192 <<< default_window_scaling : Nat) < 2147483648
      ∧ is_uint32 default_ws_window_size
      ∧ default_ws_window_size >>> default_window_scaling = 8192
      ∧ is_uint16 (default_ws_window_size >>> default_window_scaling)
      ∧ min (default_ws_window_size >>> default_window_scaling) 65535 = 8192 := by
  decide

/-- C14: the configuration constants have the listed values:
`default_window_size = 65535`, `default_window_scaling = 5`,
`default_timestamps = true`, `default_mss = 536`,
`default_max_syn_backlog = 64`, `default_msl` is 30 seconds (so twice the MSL
is 60 seconds) and `default_dack_timeout` is 40 milliseconds. -/
theorem default_constants_eq :
    default_window_size = 65535
      ∧ default_window_scaling = 5
      ∧ default_timestamps = true
      ∧ default_mss = 536
      ∧ default_max_syn_backlog = 64
      ∧ default_msl = { count := 30, period_ms := 1000 }
      ∧ default_msl.to_ms = 30 * 1000
      ∧ 2 * default_msl.to_ms = 60 * 1000
      ∧ default_dack_timeout = { count := 40, period_ms := 1 }
      ∧ default_dack_timeout.to_ms = 40 := by
  decide

/-! ## Disconnect -/

/-- C15: `Disconnect::Reason` has exactly the three values CLOSING, REFUSED and
RESET; `to_string` maps them to "Connection closing", "Connection refused"
and "Connection reset", three pairwise distinct strings, and the `switch`
gives "Unknown reason" for every other value; converting a `Disconnect` built
from reason `r` back to `Reason` yields `r`; two `Disconnect`s compare equal
exactly when their reasons are equal. -/
theorem disconnect_reason_spec :
    (∀ r : Disconnect.Reason,
        r = Disconnect.Reason.CLOSING ∨ r = Disconnect.Reason.REFUSED
          ∨ r = Disconnect.Reason.RESET)
      ∧ (Disconnect.mk Disconnect.Reason.CLOSING).to_string = "Connection closing"
      ∧ (Disconnect.mk Disconnect.Reason.REFUSED).to_string = "Connection refused"
      ∧ (Disconnect.mk Disconnect.Reason.RESET).to_string = "Connection reset"
      ∧ (∀ d dc : Disconnect, d.to_string = dc.to_string ↔ d.reason = dc.reason)
      ∧ (∀ v : Nat, (∀ r : Disconnect.Reason, v ≠ r.value) →
          Disconnect.reason_string v = "Unknown reason")
      ∧ (∀ d : Disconnect, d.to_string ≠ "Unknown reason")
      ∧ (∀ r : Disconnect.Reason, (Disconnect.mk r).to_Reason = r)
      ∧ (∀ d dc : Disconnect, Disconnect.eq d dc = true ↔ d.reason = dc.reason)
      ∧ (∀ d dc : Disconnect, Disconnect.eq d dc = true ↔ d = dc) := by
  refine ⟨?_, by decide, by decide, by decide, ?_, ?_, ?_, ?_, ?_, ?_⟩
  · intro r; cases r <;> simp
  · rintro ⟨r⟩ ⟨r'⟩
    cases r <;> cases r' <;> decide
  · intro v hv
    have h0 := hv Disconnect.Reason.CLOSING
    have h1 := hv Disconnect.Reason.REFUSED
    have h2 := hv Disconnect.Reason.RESET
    unfold Disconnect.reason_string
    rw [if_neg h0, if_neg h1, if_neg h2]
  · rintro ⟨r⟩
    cases r <;> decide
  · intro r; rfl
  · intro d dc
    unfold Disconnect.eq
    rw [decide_eq_true_eq]
  · rintro ⟨r⟩ ⟨r'⟩
    unfold Disconnect.eq
    rw [decide_eq_true_eq]
    constructor
    · intro h; cases h; rfl
    · intro h; cases h; rfl

/-! ## Filling packets and the receive buffer -/

/-- C19: for every data length `n`, `fill_packet(packet, data, n)` calls
`packet.fill` with exactly `min(n, SMSS)` as the number of bytes to take (a
`fill` that reports the number it is asked for reports `min(n, SMSS)`), which
is at most `SMSS` and at most `n`; so whenever `fill` returns no more than it
is asked for, the returned count never exceeds `min(n, SMSS)`. -/
theorem fill_packet_le {P : Type} (fill : P → List Nat → Nat → Nat × P)
    (SMSS : Nat) (packet : P) (data : List Nat) (n : Nat)
    (hfill : ∀ (p : P) (d : List Nat) (k : Nat), (fill p d k).1 ≤ k) :
    fill_packet fill SMSS packet data n = fill packet data (min n SMSS)
      ∧ fill_packet (fun (_ : P) (_ : List Nat) (k : Nat) => k) SMSS packet data n
          = min n SMSS
      ∧ min n SMSS ≤ SMSS ∧ min n SMSS ≤ n
      ∧ (fill_packet fill SMSS packet data n).1 ≤ min n SMSS
      ∧ (fill_packet fill SMSS packet data n).1 ≤ SMSS
      ∧ (fill_packet fill SMSS packet data n).1 ≤ n := by
  have h := hfill packet data (min n SMSS)
  have hdef : fill_packet fill SMSS packet data n = fill packet data (min n SMSS) := rfl
  rw [hdef]
  refine ⟨rfl, rfl, ?_, ?_, h, ?_, ?_⟩ <;> omega

/-- Evaluation of C19 with `SMSS = 1460` on an empty packet with room for 1500
bytes and 3000 bytes of data: 1460 bytes are taken. -/
theorem fill_packet_le_witness :
    (fill_packet Payload_packet.fill 1460 { payload := [], capacity := 1500 }
        (List.replicate 3000 7) 3000).1 ≤ min 3000 1460
      ∧ (fill_packet Payload_packet.fill 1460 { payload := [], capacity := 1500 }
        (List.replicate 3000 7) 3000).1 = 1460 :=
  ⟨(fill_packet_le Payload_packet.fill 1460 { payload := [], capacity := 1500 }
      (List.replicate 3000 7) 3000
      (fun p d k => by
        show min (min k d.length) (p.capacity - p.payload.length) ≤ k
        omega)).2.2.2.2.1,
   by
    show min (min (min 3000 1460) (List.replicate 3000 7).length) (1500 - 0) = 1460
    rw [List.length_replicate]
    decide⟩

/-- C20: for every read buffer and every `n`, `receive(buf, data, n)` reports
`min(n, buf.remaining)` and copies exactly that many bytes of `data` to
`buf.pos()`: every address outside those bytes, in particular every address
past the remaining capacity of the buffer, keeps its content, and `n` is
reported exactly when the whole input fitted. -/
theorem receive_copies_min (mem : Memory) (buf : ReadBuffer) (data : List Nat)
    (n : Nat) :
    (receive mem buf data n).1 = min n buf.remaining
      ∧ (receive mem buf data n).1 ≤ buf.remaining
      ∧ ((receive mem buf data n).1 = n ↔ n ≤ buf.remaining)
      ∧ (∀ i : Nat, i < min n buf.remaining →
          (receive mem buf data n).2 (buf.pos + i) = data.getD i 0)
      ∧ (∀ a : Nat, (a < buf.pos ∨ buf.pos + min n buf.remaining ≤ a) →
          (receive mem buf data n).2 a = mem a)
      ∧ (∀ a : Nat, buf.pos + buf.remaining ≤ a →
          (receive mem buf data n).2 a = mem a) := by
  have hm : ∀ a : Nat, (receive mem buf data n).2 a
      = if buf.pos ≤ a ∧ a < buf.pos + min n buf.remaining
        then data.getD (a - buf.pos) 0 else mem a := fun _ => rfl
  have h1 : (receive mem buf data n).1 = min n buf.remaining := rfl
  refine ⟨h1, ?_, ?_, ?_, ?_, ?_⟩
  · rw [h1]; omega
  · rw [h1]; omega
  · intro i hi
    rw [hm, if_pos (by omega)]
    congr 1
    omega
  · intro a ha
    rw [hm, if_neg (by omega)]
  · intro a ha
    rw [hm, if_neg (by omega)]

end net.tcp

namespace SHA1

/-! ## SHA-1 rolling checksum -/

theorem update_append (st : Hasher) (a b : List Nat) :
    update st (a ++ b) = update (update st a) b := by
  unfold update
  rw [List.foldl_append]

theorem update_chunks (chunks : List (List Nat)) :
    ∀ st : Hasher, chunks.foldl update st = update st chunks.flatten := by
  induction chunks with
  | nil => intro st; rfl
  | cons c cs ih =>
    intro st
    rw [List.foldl_cons, ih, List.flatten_cons, update_append]

theorem update_byte_count (st : Hasher) (b : Nat) :
    (update_byte st b).transforms * 64 + (update_byte st b).buffer.length
      = st.transforms * 64 + st.buffer.length + 1 := by
  unfold update_byte
  simp only []
  split
  · rename_i h
    rw [List.length_append, List.length_singleton] at h
    simp only [List.length_nil]
    omega
  · simp only [List.length_append, List.length_singleton]
    omega

theorem update_count (data : List Nat) :
    ∀ st : Hasher,
      (update st data).transforms * 64 + (update st data).buffer.length
        = st.transforms * 64 + st.buffer.length + data.length := by
  induction data with
  | nil => intro st; rfl
  | cons b bs ih =>
    intro st
    have h : update st (b :: bs) = update (update_byte st b) bs := rfl
    rw [h, ih, update_byte_count, List.length_cons]
    omega

theorem update_fits (data : List Nat) :
    ∀ st : Hasher, st.buffer.length + data.length < 64 →
      update st data = { st with buffer := st.buffer ++ data } := by
  induction data with
  | nil => intro st _; simp [update]
  | cons b bs ih =>
    intro st hlen
    rw [List.length_cons] at hlen
    have h : update st (b :: bs) = update (update_byte st b) bs := rfl
    have hb : update_byte st b = { st with buffer := st.buffer ++ [b] } := by
      unfold update_byte
      simp only []
      rw [if_neg]
      rw [List.length_append, List.length_singleton]
      omega
    rw [h, hb, ih]
    · simp
    · simp only [List.length_append, List.length_singleton]
      omega

theorem update_block (st : Hasher) (data : List Nat) (hbuf : st.buffer = [])
    (hlen : data.length = 64) :
    update st data
      = { digest := transform st.digest (buffer_to_block data), buffer := [],
          transforms := st.transforms + 1 } := by
  have hne : data ≠ [] := by
    intro h; rw [h] at hlen; simp at hlen
  have hsplit : data = data.dropLast ++ [data.getLast hne] :=
    (List.dropLast_append_getLast hne).symm
  have hl : data.dropLast.length = 63 := by
    rw [List.length_dropLast]; omega
  have hfit := update_fits data.dropLast st (by rw [hbuf, hl]; decide)
  have hstep : update st data = update_byte (update st data.dropLast) (data.getLast hne) := by
    conv_lhs => rw [hsplit]
    rw [update_append]
    rfl
  rw [hstep, hfit]
  unfold update_byte
  simp only []
  rw [hbuf, List.nil_append, ← hsplit, if_pos hlen]

theorem update_blocks (k : Nat) :
    ∀ (st : Hasher) (msg : List Nat), st.buffer = [] → msg.length = 64 * k →
      (update st msg).digest = process_blocks k st.digest msg := by
  induction k with
  | zero =>
    intro st msg _ hlen
    have : msg = [] := List.length_eq_zero.mp (by omega)
    rw [this]
    rfl
  | succ k ih =>
    intro st msg hbuf hlen
    have hsplit : msg = msg.take 64 ++ msg.drop 64 := (List.take_append_drop 64 msg).symm
    have ht : (msg.take 64).length = 64 := by
      rw [List.length_take]; omega
    have hd : (msg.drop 64).length = 64 * k := by
      rw [List.length_drop]; omega
    have hb := update_block st (msg.take 64) hbuf ht
    conv_lhs => rw [hsplit]
    rw [update_append, hb, ih _ _ rfl hd]
    rfl

theorem padded_length (len : Nat) :
    len + (padding len).length = 64 * ((len + (padding len).length) / 64) := by
  have h : (padding len).length = 1 + (119 - len % 64) % 64 + 8 := by
    unfold padding be64
    simp only [List.length_cons, List.length_append, List.length_replicate, List.length_nil]
    omega
  rw [h]
  omega

/-- The rolling hasher computes FIPS 180-4 SHA-1 of the bytes it was fed. -/
theorem finalize_update_fresh (msg : List Nat) :
    finalize (update fresh msg) = sha1 msg := by
  have hc := update_count msg fresh
  have h0 : fresh.transforms * 64 + fresh.buffer.length + msg.length = msg.length := by
    show 0 * 64 + 0 + msg.length = msg.length
    omega
  unfold finalize sha1
  rw [hc, h0, ← update_append, List.length_append]
  exact update_blocks _ fresh (msg ++ padding msg.length) rfl
    (by rw [List.length_append]; exact padded_length msg.length)

theorem hex_digit_mem (n : Nat) : hex_digit n ∈ hex_digits := by
  unfold hex_digit
  have h : n % 16 < 16 := Nat.mod_lt _ (by decide)
  generalize n % 16 = m at h
  interval_cases m <;> decide

theorem word_hex_mem (w : Nat) : ∀ c ∈ word_hex w, c ∈ hex_digits := by
  intro c hc
  unfold word_hex at hc
  simp only [List.mem_cons, List.mem_singleton, List.not_mem_nil, or_false] at hc
  rcases hc with h | h | h | h | h | h | h | h <;> rw [h] <;> exact hex_digit_mem _

theorem digest_hex_length (d : Digest) : (digest_hex d).length = 40 := by
  unfold digest_hex word_hex
  rfl

theorem digest_hex_mem (d : Digest) : ∀ c ∈ (digest_hex d).data, c ∈ hex_digits := by
  intro c hc
  unfold digest_hex at hc
  simp only [List.mem_append] at hc
  rcases hc with (((h | h) | h) | h) | h <;> exact word_hex_mem _ c h

theorem digest_raw_length (d : Digest) : (digest_raw d).length = 20 := by
  unfold digest_raw word_bytes
  rfl

theorem flatten_replicate_replicate (k m a : Nat) :
    (List.replicate k (List.replicate m a)).flatten = List.replicate (k * m) a := by
  induction k with
  | zero => simp
  | succ k ih =>
    rw [List.replicate_succ, List.flatten_cons, ih, Nat.succ_mul, Nat.add_comm (k * m) m,
      List.replicate_add]

set_option maxRecDepth 100000 in
theorem oneshot_hex_abc :
    oneshot_hex (bytes_of "abc") = "a9993e364706816aba3e25717850c26c9cd0d89d" := by
  decide

set_option maxRecDepth 100000 in
theorem oneshot_hex_two_blocks :
    oneshot_hex (bytes_of "abcdbcdecdefdefgefghfghighijhijkijkljklmklmnlmnomnopnopq")
      = "84983e441c3bd26ebaae4aa1f95129e5e54670f1" := by
  decide

end SHA1

namespace base64

/-! ## Base64 -/

theorem encode_chars_length (data : List Nat) :
    (encode_chars data).length = 4 * ((data.length + 2) / 3) := by
  induction data using encode_chars.induct with
  | case1 a b c rest ih =>
    simp only [encode_chars, List.length_cons, ih]
    omega
  | case2 a b => simp [encode_chars]
  | case3 a => simp [encode_chars]
  | case4 => simp [encode_chars]

theorem encode_chars_getLast (data : List Nat) (h : data.length % 3 ≠ 0) :
    (encode_chars data).getLast? = some '=' := by
  induction data using encode_chars.induct with
  | case1 a b c rest ih =>
    have hr : rest.length % 3 ≠ 0 := by
      simp only [List.length_cons] at h
      omega
    have hne : encode_chars rest ≠ [] := by
      intro h0
      have := ih hr
      rw [h0] at this
      simp at this
    simp only [encode_chars]
    rw [List.getLast?_cons_cons, List.getLast?_cons_cons, List.getLast?_cons_cons]
    obtain ⟨x, xs, hx⟩ := List.exists_cons_of_ne_nil hne
    rw [hx, List.getLast?_cons_cons, ← hx]
    exact ih hr
  | case2 a b => simp [encode_chars]
  | case3 a => simp [encode_chars]
  | case4 => simp at h

theorem enc_mem (n : Nat) : enc n ∈ alphabet := by
  unfold enc
  have h : n % 64 < 64 := Nat.mod_lt _ (by decide)
  generalize n % 64 = m at h
  interval_cases m <;> decide

theorem encode_chars_mem (data : List Nat) :
    ∀ c ∈ encode_chars data, c ∈ alphabet ∨ c = '=' := by
  induction data using encode_chars.induct with
  | case1 a b c rest ih =>
    intro x hx
    simp only [encode_chars, List.mem_cons] at hx
    rcases hx with h | h | h | h | h
    · rw [h]; exact Or.inl (enc_mem _)
    · rw [h]; exact Or.inl (enc_mem _)
    · rw [h]; exact Or.inl (enc_mem _)
    · rw [h]; exact Or.inl (enc_mem _)
    · exact ih x h
  | case2 a b =>
    intro x hx
    simp only [encode_chars, List.mem_cons, List.mem_singleton, List.not_mem_nil,
      or_false] at hx
    rcases hx with h | h | h | h
    · rw [h]; exact Or.inl (enc_mem _)
    · rw [h]; exact Or.inl (enc_mem _)
    · rw [h]; exact Or.inl (enc_mem _)
    · exact Or.inr h
  | case3 a =>
    intro x hx
    simp only [encode_chars, List.mem_cons, List.mem_singleton, List.not_mem_nil,
      or_false] at hx
    rcases hx with h | h | h | h
    · rw [h]; exact Or.inl (enc_mem _)
    · rw [h]; exact Or.inl (enc_mem _)
    · exact Or.inr h
    · exact Or.inr h
  | case4 =>
    intro x hx
    simp [encode_chars] at hx

end base64

set_option maxRecDepth 100000 in
theorem encode_hash_sample :
    encode_hash (SHA1.bytes_of "dGhlIHNhbXBsZSBub25jZQ==")
      = "s3pPLMBiTxaQ9kYGzzhZRbK+xOo=" := by
  decide

namespace SHA1

/-- C17: `SHA1` is a rolling checksum. `as_hex()` leaves the hasher reset and
returns 40 lowercase hexadecimal characters; after any sequence of `update()`
calls since construction, or since the previous `as_hex()`, it returns what
one `update()` of the concatenated bytes gives (the `oneshot_hex` value),
which is the FIPS 180-4 SHA-1 digest of those bytes. "abc" gives
a9993e364706816aba3e25717850c26c9cd0d89d, the following 56-byte message of the
unit test gives 84983e441c3bd26ebaae4aa1f95129e5e54670f1 on the same hasher,
and 5000 updates of 200 characters `a` give the digest of one million `a`. -/
theorem sha1_rolling_checksum :
    (∀ st : Hasher, (as_hex st).2 = fresh)
      ∧ (∀ chunks : List (List Nat),
          (as_hex (chunks.foldl update fresh)).1 = oneshot_hex chunks.flatten)
      ∧ (∀ (st : Hasher) (chunks : List (List Nat)),
          (as_hex (chunks.foldl update (as_hex st).2)).1 = oneshot_hex chunks.flatten)
      ∧ (∀ data : List Nat, oneshot_hex data = digest_hex (sha1 data))
      ∧ (∀ st : Hasher, (as_hex st).1.length = 40
          ∧ ∀ c ∈ (as_hex st).1.data, c ∈ hex_digits)
      ∧ (as_hex (update fresh (bytes_of "abc"))).1
          = "a9993e364706816aba3e25717850c26c9cd0d89d"
      ∧ (as_hex (update (as_hex (update fresh (bytes_of "abc"))).2
            (bytes_of "abcdbcdecdefdefgefghfghighijhijkijkljklmklmnlmnomnopnopq"))).1
          = "84983e441c3bd26ebaae4aa1f95129e5e54670f1"
      ∧ (as_hex ((List.replicate 5000 (List.replicate 200 97)).foldl update fresh)).1
          = oneshot_hex (List.replicate 1000000 97) := by
  have hroll : ∀ chunks : List (List Nat),
      (as_hex (chunks.foldl update fresh)).1 = oneshot_hex chunks.flatten := by
    intro chunks
    rw [update_chunks]
    rfl
  refine ⟨fun _ => rfl, hroll, fun _ chunks => hroll chunks, ?_, ?_,
    oneshot_hex_abc, oneshot_hex_two_blocks, ?_⟩
  · intro data
    show digest_hex (finalize (update fresh data)) = digest_hex (sha1 data)
    rw [finalize_update_fresh]
  · intro st
    exact ⟨digest_hex_length _, digest_hex_mem _⟩
  · rw [hroll, flatten_replicate_replicate]

end SHA1

/-- C18: for every key, `encode_hash(key)` is the padded base64 encoding of the
20-byte raw SHA-1 digest of the key followed by the WebSocket GUID: it is 28
characters long, ends in `=`, and consists of base64 characters and `=`; for
the key "dGhlIHNhbXBsZSBub25jZQ==" it is "s3pPLMBiTxaQ9kYGzzhZRbK+xOo=". -/
theorem encode_hash_accept_value :
    (∀ key : List Nat,
        (SHA1.oneshot_raw (key ++ SHA1.bytes_of websocket_GUID)).length = 20
          ∧ encode_hash key
            = base64.encode (SHA1.digest_raw
                (SHA1.sha1 (key ++ SHA1.bytes_of websocket_GUID)))
          ∧ (encode_hash key).length = 28
          ∧ (encode_hash key).data.getLast? = some '='
          ∧ (∀ c ∈ (encode_hash key).data, c ∈ base64.alphabet ∨ c = '='))
      ∧ websocket_GUID = "258EAFA5-E914-47DA-95CA-C5AB0DC85B11"
      ∧ encode_hash (SHA1.bytes_of "dGhlIHNhbXBsZSBub25jZQ==")
          = "s3pPLMBiTxaQ9kYGzzhZRbK+xOo=" := by
  refine ⟨?_, rfl, encode_hash_sample⟩
  intro key
  have hraw : SHA1.oneshot_raw (key ++ SHA1.bytes_of websocket_GUID)
      = SHA1.digest_raw (SHA1.sha1 (key ++ SHA1.bytes_of websocket_GUID)) := by
    show SHA1.digest_raw (SHA1.finalize (SHA1.update SHA1.fresh _)) = _
    rw [SHA1.finalize_update_fresh]
  have hlen := SHA1.digest_raw_length (SHA1.sha1 (key ++ SHA1.bytes_of websocket_GUID))
  have hdef : encode_hash key
      = String.mk (base64.encode_chars (SHA1.digest_raw
          (SHA1.sha1 (key ++ SHA1.bytes_of websocket_GUID)))) := by
    unfold encode_hash base64.encode
    rw [hraw]
  refine ⟨by rw [hraw]; exact hlen, by rw [hdef]; rfl, ?_, ?_, ?_⟩
  · rw [hdef]
    show (base64.encode_chars _).length = 28
    rw [base64.encode_chars_length, hlen]
  · rw [hdef]
    show (base64.encode_chars _).getLast? = some '='
    exact base64.encode_chars_getLast _ (by rw [hlen]; decide)
  · rw [hdef]
    exact base64.encode_chars_mem _

namespace net.tcp

/-! ## Event signalling -/

theorem to_size_t_of_small (bits : Nat) (z : Int) (hbits : 8 ≤ bits) (h0 : 0 ≤ z)
    (h1 : z < 256) : (to_size_t bits z : Int) = z := by
  have hp : 2 ^ 8 ≤ 2 ^ bits := Nat.pow_le_pow_right (by decide) hbits
  have hp2 : (256 : Int) ≤ ((2 ^ bits : Nat) : Int) := by
    have : (256 : Nat) ≤ 2 ^ bits := hp
    exact_mod_cast this
  unfold to_size_t
  rw [Int.emod_eq_of_lt h0 (by omega)]
  omega

/-- C21: `signal_rtx_timeout` calls the `on_rtx_timeout` callback, when one is
registered, exactly once, with `rtx_attempt_ + 1` as the number of attempts
(1 when the counter is 0) and the current RTO in milliseconds; without a
registered callback it calls nothing; in both cases the function itself
leaves `rtx_attempt_`, the rest of the connection and the callback slots as
they were. The counter is an `int8_t` that counts up from 0. -/
theorem signal_rtx_timeout_spec (size_bits rto_ms : Nat) (c : Connection)
    (cbs : Callbacks) (hbits : 8 ≤ size_bits) (h0 : 0 ≤ c.rtx_attempt_)
    (h1 : c.rtx_attempt_ ≤ 127) :
    (∀ h : Nat, cbs.on_rtx_timeout_ = some h →
        (signal_rtx_timeout size_bits rto_ms c cbs).calls
          = [Invocation.rtx_timeout (some h) (c.rtx_attempt_ + 1).toNat rto_ms])
      ∧ (cbs.on_rtx_timeout_ = none →
        (signal_rtx_timeout size_bits rto_ms c cbs).calls = [])
      ∧ (c.rtx_attempt_ = 0 → ∀ h : Nat, cbs.on_rtx_timeout_ = some h →
        (signal_rtx_timeout size_bits rto_ms c cbs).calls
          = [Invocation.rtx_timeout (some h) 1 rto_ms])
      ∧ (signal_rtx_timeout size_bits rto_ms c cbs).conn = c
      ∧ (signal_rtx_timeout size_bits rto_ms c cbs).conn.rtx_attempt_ = c.rtx_attempt_
      ∧ (signal_rtx_timeout size_bits rto_ms c cbs).slots = cbs := by
  have hn : to_size_t size_bits (to_int32 (c.rtx_attempt_ + 1))
      = (c.rtx_attempt_ + 1).toNat := by
    rw [to_int32_of_range _ (by omega) (by omega)]
    have := to_size_t_of_small size_bits (c.rtx_attempt_ + 1) hbits (by omega) (by omega)
    omega
  have hsome : ∀ h : Nat, cbs.on_rtx_timeout_ = some h →
      (signal_rtx_timeout size_bits rto_ms c cbs).calls
        = [Invocation.rtx_timeout (some h) (c.rtx_attempt_ + 1).toNat rto_ms] := by
    intro h hs
    unfold signal_rtx_timeout
    rw [hs, hn]
    rfl
  have hstate : (signal_rtx_timeout size_bits rto_ms c cbs).conn = c
      ∧ (signal_rtx_timeout size_bits rto_ms c cbs).slots = cbs := by
    unfold signal_rtx_timeout
    split <;> exact ⟨rfl, rfl⟩
  refine ⟨hsome, ?_, ?_, hstate.1, by rw [hstate.1], hstate.2⟩
  · intro hnone
    unfold signal_rtx_timeout
    rw [hnone]
    rfl
  · intro hz h hs
    rw [hsome h hs, hz]
    rfl

/-- Evaluation of C21 on a new connection (counter 0) with handler 7
registered and an RTO of 1000 ms: one call with attempt count 1. -/
theorem signal_rtx_timeout_spec_witness :
    (signal_rtx_timeout 32 1000
        (Connection.fresh (mk_tcb 0 0 65535 0 0 4380 65535 0) { q := [] } false 0)
        { Callbacks.none_set with on_rtx_timeout_ := some 7 }).calls
      = [Invocation.rtx_timeout (some 7) 1 1000] :=
  (signal_rtx_timeout_spec 32 1000
    (Connection.fresh (mk_tcb 0 0 65535 0 0 4380 65535 0) { q := [] } false 0)
    { Callbacks.none_set with on_rtx_timeout_ := some 7 }
    (by decide) (by decide) (by decide)).2.2.1 rfl 7 rfl

/-- C22: in every connection state with 32-bit windows,
`usable_window() <= send_window()`, so `can_send()` implies
`can_send_one()`. -/
theorem can_send_imp_can_send_one (SMSS : Nat) (c : Connection)
    (hWND : is_uint32 c.cb.SND.WND) (hcwnd : is_uint32 c.cb.cwnd) :
    usable_window c.cb ≤ send_window c.cb
      ∧ (can_send SMSS c = true → can_send_one SMSS c = true) := by
  have h := usable_window_cast c.cb hWND hcwnd
  have hs : send_window c.cb = min c.cb.SND.WND c.cb.cwnd := rfl
  have hle : usable_window c.cb ≤ send_window c.cb := by omega
  refine ⟨hle, ?_⟩
  unfold can_send can_send_one
  simp only [Bool.and_eq_true, decide_eq_true_eq]
  rintro ⟨h1, h2⟩
  exact ⟨by omega, h2⟩

/-- Evaluation of C22 with `SMSS = 1460`, 1000 bytes in flight, a send window
of 4380 and one queued request of 5000 bytes: both predicates hold. -/
theorem can_send_imp_can_send_one_witness :
    can_send_one 1460
      (Connection.fresh (mk_tcb 1000 2000 65535 0 0 4380 65535 0)
        { q := [{ offset := 0, length := 5000 }] } false 0) = true :=
  (can_send_imp_can_send_one 1460
    (Connection.fresh (mk_tcb 1000 2000 65535 0 0 4380 65535 0)
      { q := [{ offset := 0, length := 5000 }] } false 0)
    (by decide) (by decide)).2 (by decide)

end net.tcp

namespace net.tcp

/-! ## Deflating the congestion window -/

/-- The amount `reno_deflate_cwnd` subtracts, for 16-bit `n` and `SMSS`. -/
theorem reno_deflate_cwnd_cwnd (SMSS n : Nat) (cb : TCB) (hS : is_uint16 SMSS)
    (hn : is_uint16 n) :
    (reno_deflate_cwnd SMSS n cb).cwnd
      = to_uint32 ((cb.cwnd : Int) - ((if SMSS ≤ n then n - SMSS else n : Nat) : Int)) := by
  unfold is_uint16 at hS hn
  unfold reno_deflate_cwnd
  simp only [ge_iff_le]
  by_cases h : SMSS ≤ n
  · simp only [h, if_true]
    rw [to_int32_of_range _ (by omega) (by omega),
      to_uint32_of_range _ (by omega) (by omega)]
    congr 2
    omega
  · simp only [h, if_false]
    rw [to_int32_of_range _ (by omega) (by omega),
      to_uint32_of_range _ (by omega) (by omega)]

/-- C23, as stated, fails: with `cwnd = 50`, `SMSS = 1460` and `n = 100` the
unsigned subtraction `50 - 100` wraps, and the new `cwnd` is 4294967246,
larger than the old one. -/
theorem reno_deflate_cwnd_wraps :
    (reno_deflate_cwnd 1460 100 (mk_tcb 0 0 65535 0 0 50 65535 0)).cwnd = 4294967246
      ∧ ¬ ((reno_deflate_cwnd 1460 100 (mk_tcb 0 0 65535 0 0 50 65535 0)).cwnd
            ≤ (mk_tcb 0 0 65535 0 0 50 65535 0).cwnd) := by
  decide

/-- C23 (amended): for 32-bit `cwnd` and 16-bit `n` and `SMSS`,
`reno_deflate_cwnd(n)` subtracts `d = n - SMSS` when `n >= SMSS` and `d = n`
otherwise. The new `cwnd` is `cwnd - d`, not larger than the old one, exactly
when `d <= cwnd`; when `d > cwnd` the unsigned subtraction wraps and the new
`cwnd` is `cwnd + 2^32 - d`, larger than the old one. -/
theorem reno_deflate_cwnd_le_iff (SMSS n : Nat) (cb : TCB) (hS : is_uint16 SMSS)
    (hn : is_uint16 n) (hc : is_uint32 cb.cwnd) :
    ((reno_deflate_cwnd SMSS n cb).cwnd ≤ cb.cwnd
        ↔ (if SMSS ≤ n then n - SMSS else n) ≤ cb.cwnd)
      ∧ ((if SMSS ≤ n then n - SMSS else n) ≤ cb.cwnd →
          (reno_deflate_cwnd SMSS n cb).cwnd
            = cb.cwnd - (if SMSS ≤ n then n - SMSS else n))
      ∧ (cb.cwnd < (if SMSS ≤ n then n - SMSS else n) →
          (reno_deflate_cwnd SMSS n cb).cwnd
              = cb.cwnd + 4294967296 - (if SMSS ≤ n then n - SMSS else n)
            ∧ cb.cwnd < (reno_deflate_cwnd SMSS n cb).cwnd) := by
  have hd := reno_deflate_cwnd_cwnd SMSS n cb hS hn
  unfold is_uint16 at hS hn
  unfold is_uint32 at hc
  have hdlt : (if SMSS ≤ n then n - SMSS else n) < 65536 := by
    split <;> omega
  generalize (if SMSS ≤ n then n - SMSS else n) = d at hd hdlt
  have hcast := to_uint32_cast ((cb.cwnd : Int) - (d : Int))
  rw [hd]
  refine ⟨?_, ?_, ?_⟩
  · constructor
    · intro h; omega
    · intro h; omega
  · intro h; omega
  · intro h; omega

/-- Evaluation of the amended C23 with `cwnd = 10000`, `SMSS = 1460` and
`n = 2000`: 540 is subtracted and the window does not grow. -/
theorem reno_deflate_cwnd_le_iff_witness :
    (reno_deflate_cwnd 1460 2000 (mk_tcb 0 0 65535 0 0 10000 65535 0)).cwnd
      ≤ (mk_tcb 0 0 65535 0 0 10000 65535 0).cwnd :=
  (reno_deflate_cwnd_le_iff 1460 2000 (mk_tcb 0 0 65535 0 0 10000 65535 0)
    (by decide) (by decide) (by decide)).1.mpr (by decide)

/-! ## Guards of the signalling functions -/

/-- C24, as stated, fails: with every callback slot empty,
`signal_disconnect` still applies the call operator of `on_disconnect_`: it
has no test of the slot. -/
theorem signal_disconnect_calls_unset_slot :
    Callbacks.none_set.on_disconnect_ = none
      ∧ (signal_disconnect
          (Connection.fresh (mk_tcb 0 0 65535 0 0 4380 65535 0) { q := [] } false 0)
          Callbacks.none_set Disconnect.Reason.RESET).calls
        = [Invocation.disconnect none (Disconnect.mk Disconnect.Reason.RESET)]
      ∧ ¬ ((signal_disconnect
          (Connection.fresh (mk_tcb 0 0 65535 0 0 4380 65535 0) { q := [] } false 0)
          Callbacks.none_set Disconnect.Reason.RESET).calls = []) := by
  decide

/-- C24 (amended): `signal_connect`, `signal_error`, `signal_packet_dropped`
and `signal_rtx_timeout` call their callback only when its slot is set, once
and on that slot, and call nothing when it is unset. `signal_disconnect` has
no such test: it always calls `on_disconnect_` once with `Disconnect{reason}`.
None of the five functions itself changes the connection or the callback
slots. -/
theorem signal_guards (size_bits rto_ms : Nat) (c : Connection) (cbs : Callbacks)
    (error : String) (packet : Packet) (dropped : Drop_reason)
    (reason : Disconnect.Reason) :
    ((cbs.on_connect_ = none → (signal_connect c cbs).calls = [])
        ∧ (∀ h : Nat, cbs.on_connect_ = some h →
            (signal_connect c cbs).calls = [Invocation.connect (some h)])
        ∧ (signal_connect c cbs).conn = c ∧ (signal_connect c cbs).slots = cbs)
      ∧ ((cbs.on_error_ = none → (signal_error c cbs error).calls = [])
        ∧ (∀ h : Nat, cbs.on_error_ = some h →
            (signal_error c cbs error).calls = [Invocation.error (some h) error])
        ∧ (signal_error c cbs error).conn = c
        ∧ (signal_error c cbs error).slots = cbs)
      ∧ ((cbs.on_packet_dropped_ = none →
            (signal_packet_dropped c cbs packet dropped).calls = [])
        ∧ (∀ h : Nat, cbs.on_packet_dropped_ = some h →
            (signal_packet_dropped c cbs packet dropped).calls
              = [Invocation.packet_dropped (some h) packet.seq packet.ack dropped])
        ∧ (signal_packet_dropped c cbs packet dropped).conn = c
        ∧ (signal_packet_dropped c cbs packet dropped).slots = cbs)
      ∧ ((cbs.on_rtx_timeout_ = none →
            (signal_rtx_timeout size_bits rto_ms c cbs).calls = [])
        ∧ (∀ h : Nat, cbs.on_rtx_timeout_ = some h →
            (signal_rtx_timeout size_bits rto_ms c cbs).calls
              = [Invocation.rtx_timeout (some h)
                  (to_size_t size_bits (to_int32 (c.rtx_attempt_ + 1))) rto_ms])
        ∧ (signal_rtx_timeout size_bits rto_ms c cbs).conn = c
        ∧ (signal_rtx_timeout size_bits rto_ms c cbs).slots = cbs)
      ∧ ((signal_disconnect c cbs reason).calls
            = [Invocation.disconnect cbs.on_disconnect_ (Disconnect.mk reason)]
        ∧ (signal_disconnect c cbs reason).conn = c
        ∧ (signal_disconnect c cbs reason).slots = cbs) := by
  refine ⟨⟨?_, ?_, ?_, ?_⟩, ⟨?_, ?_, ?_, ?_⟩, ⟨?_, ?_, ?_, ?_⟩, ⟨?_, ?_, ?_, ?_⟩,
    ⟨rfl, rfl, rfl⟩⟩
  · intro h; unfold signal_connect; rw [h]; rfl
  · intro x h; unfold signal_connect; rw [h]; rfl
  · unfold signal_connect; split <;> rfl
  · unfold signal_connect; split <;> rfl
  · intro h; unfold signal_error; rw [h]; rfl
  · intro x h; unfold signal_error; rw [h]; rfl
  · unfold signal_error; split <;> rfl
  · unfold signal_error; split <;> rfl
  · intro h; unfold signal_packet_dropped; rw [h]; rfl
  · intro x h; unfold signal_packet_dropped; rw [h]; rfl
  · unfold signal_packet_dropped; split <;> rfl
  · unfold signal_packet_dropped; split <;> rfl
  · intro h; unfold signal_rtx_timeout; rw [h]; rfl
  · intro x h; unfold signal_rtx_timeout; rw [h]; rfl
  · unfold signal_rtx_timeout; split <;> rfl
  · unfold signal_rtx_timeout; split <;> rfl

end net.tcp

/-! ## Statman -/

theorem stored_name_eq (NAME_SIZE MAX_NAME_LEN : Nat) (name : String)
    (hlen : name.length ≤ MAX_NAME_LEN) (hsize : MAX_NAME_LEN < NAME_SIZE)
    (hnul : Char.ofNat 0 ∉ name.data) :
    String.mk ((c_str name).take (NAME_SIZE - 1)) = name := by
  have h1 : c_str name = name.data := by
    unfold c_str
    rw [List.takeWhile_eq_self_iff]
    intro c hc
    simp only [ne_eq, decide_not, Bool.not_eq_true', decide_eq_false_iff_not]
    intro h
    exact hnul (h ▸ hc)
  have h2 : name.data.length ≤ NAME_SIZE - 1 := by
    have : name.data.length = name.length := rfl
    omega
  rw [h1, List.take_of_length_le h2]

theorem construct_valid (MAX_NAME_LEN NAME_SIZE : Nat) (old : Stat)
    (type : Stat.Stat_type) (index : Int) (name : String)
    (htype : ∀ v : Nat, type ≠ Stat.Stat_type.invalid v)
    (hlen : name.length ≤ MAX_NAME_LEN) :
    (Stat.construct MAX_NAME_LEN NAME_SIZE old type index name).1 = Except.ok ()
      ∧ (Stat.construct MAX_NAME_LEN NAME_SIZE old type index name).2.type_ = type
      ∧ (Stat.construct MAX_NAME_LEN NAME_SIZE old type index name).2.index_into_span_
          = index
      ∧ (Stat.construct MAX_NAME_LEN NAME_SIZE old type index name).2.name_
          = String.mk ((c_str name).take (NAME_SIZE - 1))
      ∧ (Stat.construct MAX_NAME_LEN NAME_SIZE old type index name).2.value
          = Except.ok 0 := by
  have hn : ¬ name.length > MAX_NAME_LEN := by omega
  unfold Stat.construct
  simp only [hn, if_false]
  cases type with
  | FLOAT =>
    refine ⟨rfl, rfl, rfl, rfl, ?_⟩
    simp [Stat.value, Stat.get_float]
  | UINT32 =>
    refine ⟨rfl, rfl, rfl, rfl, ?_⟩
    simp [Stat.value, Stat.get_uint32]
  | UINT64 =>
    refine ⟨rfl, rfl, rfl, rfl, ?_⟩
    simp [Stat.value, Stat.get_uint64]
  | invalid v => exact absurd rfl (htype v)

theorem construct_throws (MAX_NAME_LEN NAME_SIZE : Nat) (old : Stat)
    (type : Stat.Stat_type) (index : Int) (name : String)
    (h : MAX_NAME_LEN < name.length ∨ ∃ v : Nat, type = Stat.Stat_type.invalid v) :
    ∃ what : String,
      (Stat.construct MAX_NAME_LEN NAME_SIZE old type index name).1
        = Except.error (Stats_error.Stats_exception what) := by
  unfold Stat.construct
  by_cases hn : name.length > MAX_NAME_LEN
  · simp only [hn, if_true]
    exact ⟨_, rfl⟩
  · simp only [hn, if_false]
    rcases h with h | ⟨v, hv⟩
    · omega
    · rw [hv]
      exact ⟨_, rfl⟩

theorem create_full (MAX_NAME_LEN NAME_SIZE : Nat) (sm : Statman)
    (type : Stat.Stat_type) (name : String) (h : sm.stats_.length ≤ sm.next_available_) :
    Statman.create MAX_NAME_LEN NAME_SIZE sm type name
      = (Except.error Stats_error.Stats_out_of_memory, sm) := by
  have hn : ¬ sm.next_available_ < sm.stats_.length := by omega
  unfold Statman.create
  simp only [hn, dite_false]

theorem create_room (MAX_NAME_LEN NAME_SIZE : Nat) (sm : Statman)
    (type : Stat.Stat_type) (name : String) (h : sm.next_available_ < sm.stats_.length)
    (r : Except Stats_error Unit × Stat)
    (hr : r = Stat.construct MAX_NAME_LEN NAME_SIZE (sm.stats_.get ⟨sm.next_available_, h⟩)
      type (sm.next_available_ : Int) name) :
    (r.1 = Except.ok () →
        Statman.create MAX_NAME_LEN NAME_SIZE sm type name
          = (Except.ok r.2,
              { sm with stats_ := sm.stats_.set sm.next_available_ r.2,
                        next_available_ := sm.next_available_ + 1 }))
      ∧ (∀ e : Stats_error, r.1 = Except.error e →
        Statman.create MAX_NAME_LEN NAME_SIZE sm type name
          = (Except.error e, { sm with stats_ := sm.stats_.set sm.next_available_ r.2 })) := by
  have hc : Statman.create MAX_NAME_LEN NAME_SIZE sm type name
      = match r.1 with
        | Except.error e =>
            (Except.error e, { sm with stats_ := sm.stats_.set sm.next_available_ r.2 })
        | Except.ok _ =>
            (Except.ok r.2,
              { sm with stats_ := sm.stats_.set sm.next_available_ r.2,
                        next_available_ := sm.next_available_ + 1 }) := by
    unfold Statman.create
    simp only [h, dite_true]
    rw [hr]
    rfl
  constructor
  · intro hok
    rw [hc, hok]
  · intro e he
    rw [hc, he]

/-- C26, evaluated at the failing input: over a span of two slots that hold an
empty name and with nothing created, `get("")` returns slot 0 instead of
throwing; after one `create` of "net.tcp.rx" (so `next_available_ = 1`),
`get("")` returns slot 1, which `create` has not filled. -/
theorem statman_get_returns_unfilled_slot :
    Statman.init 64 [Stat.zeroed, Stat.zeroed] 128 = Except.ok Statman.two_unused
      ∧ Statman.two_unused.next_available_ = 0
      ∧ Statman.get Statman.two_unused "" = Except.ok (0, Stat.zeroed)
      ∧ (Statman.create 46 47 Statman.two_unused Stat.Stat_type.UINT32
          "net.tcp.rx").2.next_available_ = 1
      ∧ Statman.get (Statman.create 46 47 Statman.two_unused Stat.Stat_type.UINT32
          "net.tcp.rx").2 "" = Except.ok (1, Stat.zeroed) :=
  ⟨rfl, rfl, rfl, rfl, rfl⟩

namespace x86

/-! ## ACPI checksum and MADT walk -/

theorem checksum_step (sum byte : Nat) :
    to_uint8 ((sum : Int) + char_value byte) = (sum + byte % 256) % 256 := by
  unfold to_uint8 char_value
  omega

theorem checksum_loop_eq (mem : Memory) (size : Nat) :
    ∀ (fuel addr sum : Nat), size < fuel → sum < 256 →
      ACPI.checksum_loop fuel mem addr (addr + size) sum
        = some ((sum + byte_sum mem addr size) % 256) := by
  induction size with
  | zero =>
    intro fuel addr sum hf hs
    obtain ⟨f, rfl⟩ : ∃ f, fuel = f + 1 := ⟨fuel - 1, by omega⟩
    have hb : byte_sum mem addr 0 = 0 := by unfold byte_sum; rfl
    unfold ACPI.checksum_loop
    rw [if_neg (by omega), hb]
    congr 1
    omega
  | succ n ih =>
    intro fuel addr sum hf hs
    obtain ⟨f, rfl⟩ : ∃ f, fuel = f + 1 := ⟨fuel - 1, by omega⟩
    unfold ACPI.checksum_loop
    rw [if_pos (by omega), checksum_step sum (mem addr)]
    have hend : addr + (n + 1) = addr + 1 + n := by omega
    have hb : byte_sum mem addr (n + 1) = mem addr % 256 + byte_sum mem (addr + 1) n := rfl
    rw [hend, ih f (addr + 1) _ (by omega) (by omega), hb]
    congr 1
    omega

/-- C29: with enough fuel for its `size` iterations, `ACPI::checksum(addr,
size)` returns, and returns true exactly when the sum of the `size` bytes
starting at `addr` is congruent to 0 modulo 256; it returns true for size
0. -/
theorem checksum_iff (fuel : Nat) (mem : Memory) (addr size : Nat) (hfuel : size < fuel) :
    ACPI.checksum fuel mem addr size = some (decide (byte_sum mem addr size % 256 = 0))
      ∧ (ACPI.checksum fuel mem addr size = some true
          ↔ byte_sum mem addr size % 256 = 0)
      ∧ ACPI.checksum fuel mem addr 0 = some true := by
  have h := checksum_loop_eq mem size fuel addr 0 hfuel (by decide)
  have h0 := checksum_loop_eq mem 0 fuel addr 0 (by omega) (by decide)
  have hv : ACPI.checksum fuel mem addr size
      = some (decide (byte_sum mem addr size % 256 = 0)) := by
    unfold ACPI.checksum
    rw [h, Nat.zero_add]
    rfl
  refine ⟨hv, ?_, ?_⟩
  · rw [hv]
    simp
  · unfold ACPI.checksum
    rw [h0]
    rfl

/-- Evaluation of C29 on the four bytes 0x10, 0x20, 0x30, 0xa0 at address 100,
whose sum is 256. -/
theorem checksum_iff_witness :
    ACPI.checksum 5 (memory_of 100 [16, 32, 48, 160]) 100 4 = some true
      ↔ byte_sum (memory_of 100 [16, 32, 48, 160]) 100 4 % 256 = 0 :=
  (checksum_iff 5 (memory_of 100 [16, 32, 48, 160]) 100 4 (by decide)).2.1

theorem visit_lists (st : ACPI) (ptr type : Nat) :
    (ACPI.visit st ptr type).lapics = st.lapics ++ (if type = 0 then [ptr] else [])
      ∧ (ACPI.visit st ptr type).ioapics = st.ioapics ++ (if type = 1 then [ptr] else [])
      ∧ (ACPI.visit st ptr type).overrides
          = st.overrides ++ (if type = 2 then [ptr] else [])
      ∧ (ACPI.visit st ptr type).apic_base = st.apic_base := by
  match type with
  | 0 => simp [ACPI.visit]
  | 1 => simp [ACPI.visit]
  | 2 => simp [ACPI.visit]
  | n + 3 => simp [ACPI.visit]

theorem visit_all_lists (recs : List (Nat × Nat)) :
    ∀ (st : ACPI) (ptr : Nat),
      (visit_all st ptr recs).lapics = st.lapics ++ addresses_of 0 ptr recs
        ∧ (visit_all st ptr recs).ioapics = st.ioapics ++ addresses_of 1 ptr recs
        ∧ (visit_all st ptr recs).overrides = st.overrides ++ addresses_of 2 ptr recs
        ∧ (visit_all st ptr recs).apic_base = st.apic_base := by
  induction recs with
  | nil =>
    intro st ptr
    simp [visit_all, addresses_of]
  | cons r rest ih =>
    intro st ptr
    obtain ⟨t, l⟩ := r
    obtain ⟨h1, h2, h3, h4⟩ := ih (ACPI.visit st ptr t) (ptr + l)
    obtain ⟨v1, v2, v3, v4⟩ := visit_lists st ptr t
    unfold visit_all addresses_of
    rw [h1, h2, h3, h4, v1, v2, v3, v4]
    refine ⟨?_, ?_, ?_, rfl⟩
    · by_cases h : t = 0 <;> simp [h]
    · by_cases h : t = 1 <;> simp [h]
    · by_cases h : t = 2 <;> simp [h]

theorem walk_madt_loop_eq (mem : Memory) (recs : List (Nat × Nat)) :
    ∀ (fuel : Nat) (len : Int) (ptr : Nat) (st : ACPI),
      laid_out mem ptr recs = true → (∀ r ∈ recs, 0 < r.2) →
      (((recs.map (fun r => r.2)).sum : Nat) : Int) = len → len < 2147483648 →
      recs.length < fuel →
      ACPI.walk_madt_loop fuel mem len ptr st = some (visit_all st ptr recs) := by
  induction recs with
  | nil =>
    intro fuel len ptr st _ _ hsum _ hf
    obtain ⟨f, rfl⟩ : ∃ f, fuel = f + 1 := ⟨fuel - 1, by simp at hf; omega⟩
    simp only [List.map_nil, List.sum_nil, Nat.cast_zero] at hsum
    unfold ACPI.walk_madt_loop visit_all
    rw [if_pos hsum.symm]
  | cons r rest ih =>
    intro fuel len ptr st hlay hpos hsum hlt hf
    obtain ⟨t, l⟩ := r
    obtain ⟨f, rfl⟩ : ∃ f, fuel = f + 1 :=
      ⟨fuel - 1, by simp only [List.length_cons] at hf; omega⟩
    unfold laid_out at hlay
    simp only [Bool.and_eq_true, decide_eq_true_eq] at hlay
    obtain ⟨⟨ht, hl⟩, hrest⟩ := hlay
    have hlpos : 0 < l := hpos (t, l) (List.mem_cons_self _ _)
    simp only [List.map_cons, List.sum_cons, Nat.cast_add] at hsum
    have hnn : (0 : Int) ≤ (((rest.map (fun r => r.2)).sum : Nat) : Int) := Int.natCast_nonneg _
    have hne : ¬ len = 0 := by omega
    have hconv : net.tcp.to_int32 (len - (l : Int))
        = (((rest.map (fun r => r.2)).sum : Nat) : Int) := by
      rw [net.tcp.to_int32_of_range _ (by omega) (by omega)]
      omega
    unfold ACPI.walk_madt_loop visit_all
    simp only [hne, if_false, ht, hl]
    rw [hconv]
    exact ih f _ (ptr + l) (ACPI.visit st ptr t) hrest
      (fun r hr => hpos r (List.mem_cons_of_mem _ hr)) rfl (by omega)
      (by simp only [List.length_cons] at hf; omega)

/-- C27: when the records behind the header are laid out back to back, each
with a positive length, and their lengths sum exactly to
`hdr.Length - sizeof(MADTHeader)` (below 2^31), `ACPI::walk_madt` returns
with any fuel above the number of records: it has visited every record once
in table order, `lapics` has gained the type-0 records, `ioapics` the type-1
records and `overrides` the type-2 records, in table order, records of other
types are only stepped over by their length, and `apic_base` is
`hdr.lapic_addr`. -/
theorem walk_madt_terminates (fuel : Nat) (mem : Memory) (addr : Nat)
    (hdr : MADTHeader) (st : ACPI) (recs : List (Nat × Nat))
    (hlay : laid_out mem (addr + hdr.sizeof) recs = true)
    (hpos : ∀ r ∈ recs, 0 < r.2)
    (hsum : (recs.map (fun r => r.2)).sum + hdr.sizeof = hdr.Length)
    (hlen : hdr.Length < 2147483648) (hfuel : recs.length < fuel) :
    ACPI.walk_madt fuel mem addr hdr st
        = some (visit_all { st with apic_base := hdr.lapic_addr } (addr + hdr.sizeof) recs)
      ∧ ∃ out : ACPI, ACPI.walk_madt fuel mem addr hdr st = some out
          ∧ out.lapics = st.lapics ++ addresses_of 0 (addr + hdr.sizeof) recs
          ∧ out.ioapics = st.ioapics ++ addresses_of 1 (addr + hdr.sizeof) recs
          ∧ out.overrides = st.overrides ++ addresses_of 2 (addr + hdr.sizeof) recs
          ∧ out.apic_base = hdr.lapic_addr := by
  have hlen0 : net.tcp.to_int32
      (net.tcp.to_uint32 ((hdr.Length : Int) - (hdr.sizeof : Int)) : Int)
      = (((recs.map (fun r => r.2)).sum : Nat) : Int) := by
    rw [net.tcp.to_uint32_of_range _ (by omega) (by omega),
      net.tcp.to_int32_of_range _ (by omega) (by omega)]
    omega
  have hw : ACPI.walk_madt fuel mem addr hdr st
      = some (visit_all { st with apic_base := hdr.lapic_addr } (addr + hdr.sizeof) recs) := by
    unfold ACPI.walk_madt
    rw [hlen0]
    exact walk_madt_loop_eq mem recs fuel _ _ _ hlay hpos rfl (by omega) hfuel
  obtain ⟨h1, h2, h3, h4⟩ :=
    visit_all_lists recs { st with apic_base := hdr.lapic_addr } (addr + hdr.sizeof)
  exact ⟨hw, _, hw, h1, h2, h3, h4⟩

/-- Evaluation of C27 on a table at address 1000 with a 44-byte header and
four records (types 0, 1, 2 and 4; lengths 8, 12, 10 and 6). -/
theorem walk_madt_terminates_witness :
    ACPI.walk_madt 5 sample_madt 1000 sample_madt_header
        { apic_base := 0, lapics := [], ioapics := [], overrides := [] }
      = some { apic_base := 4276092928, lapics := [1044], ioapics := [1052],
               overrides := [1064] } :=
  (walk_madt_terminates 5 sample_madt 1000 sample_madt_header
    { apic_base := 0, lapics := [], ioapics := [], overrides := [] } sample_madt_records
    (by decide) (by decide) (by decide) (by decide) (by decide)).1

end x86

namespace http

/-! ## HTTP client connection -/

/-- C28, as stated, fails: a response handler that sends a new request on the
connection with itself as handler (the case `end_response` moves the handler
out for) leaves the slot filled after `end_response` and after `close`, and a
further `close` calls the same handler again. -/
theorem handler_resend_refills_slot :
    (Client_connection.end_response resending_user sample_pending Error.NONE).map
        (fun r => r.1.on_response_) = some (some 7)
      ∧ (Client_connection.close resending_user sample_pending).1.on_response_ = some 7
      ∧ handler_calls (Client_connection.close resending_user
          (Client_connection.close resending_user sample_pending).1).2
        = [Effect.response 7 Error.CLOSING none
            (Client_connection.close resending_user sample_pending).1.handed_over] := by
  decide

/-- C28 (amended): `Client_connection::close()` with a response handler pending
stops the timer, calls that handler exactly once, with `Error::CLOSING`, the
response, and a connection whose handler slot is already empty, and then asks
the client to close the connection; with none pending it calls no handler and
only asks the client to close. `end_response` likewise calls the pending
handler exactly once on a connection whose slot is already empty. Unless the
handler itself registers a new one, the slot is empty after `end_response` or
`close`, and a further `close` calls no handler. -/
theorem close_delivers_at_most_once
    (user : Nat → Error → Option Nat → Client_connection → Client_connection)
    (s : Client_connection) (err : Error) :
    (∀ h : Nat, s.on_response_ = some h →
        (Client_connection.close user s).2
            = [Effect.timer_stop, Effect.response h Error.CLOSING s.res_ s.handed_over,
               Effect.client_close]
          ∧ handler_calls (Client_connection.close user s).2
            = [Effect.response h Error.CLOSING s.res_ s.handed_over]
          ∧ s.handed_over.on_response_ = none
          ∧ (Client_connection.close user s).1
            = user h Error.CLOSING s.res_ s.handed_over)
      ∧ (s.on_response_ = none →
          Client_connection.close user s = (s, [Effect.client_close])
            ∧ handler_calls (Client_connection.close user s).2 = [])
      ∧ (handler_calls (Client_connection.close user s).2).length ≤ 1
      ∧ (Client_connection.close user s).2.getLast? = some Effect.client_close
      ∧ (∀ h : Nat, s.on_response_ = some h →
          ∃ r : Client_connection × List Effect,
            Client_connection.end_response user s err = some r
              ∧ r.2 = [Effect.timer_stop, Effect.response h err s.res_ s.handed_over,
                   Effect.end_connection]
              ∧ handler_calls r.2 = [Effect.response h err s.res_ s.handed_over]
              ∧ r.1 = user h err s.res_ s.handed_over)
      ∧ (s.on_response_ = none → Client_connection.end_response user s err = none)
      ∧ ((∀ (h : Nat) (e : Error) (res : Option Nat) (conn : Client_connection),
            (user h e res conn).on_response_ = conn.on_response_) →
          (Client_connection.close user s).1.on_response_ = none
            ∧ (∀ r : Client_connection × List Effect,
                Client_connection.end_response user s err = some r →
                  r.1.on_response_ = none
                    ∧ handler_calls (Client_connection.close user r.1).2 = [])
            ∧ handler_calls
                (Client_connection.close user (Client_connection.close user s).1).2 = []) := by
  have hclose_none : ∀ t : Client_connection, t.on_response_ = none →
      Client_connection.close user t = (t, [Effect.client_close]) := by
    intro t ht
    unfold Client_connection.close
    rw [ht]
  have hclose_some : ∀ h : Nat, s.on_response_ = some h →
      Client_connection.close user s
        = (user h Error.CLOSING s.res_ s.handed_over,
            [Effect.timer_stop, Effect.response h Error.CLOSING s.res_ s.handed_over,
             Effect.client_close]) := by
    intro h hs
    unfold Client_connection.close
    rw [hs]
  have hend_some : ∀ h : Nat, s.on_response_ = some h →
      Client_connection.end_response user s err
        = some (user h err s.res_ s.handed_over,
            [Effect.timer_stop, Effect.response h err s.res_ s.handed_over,
             Effect.end_connection]) := by
    intro h hs
    unfold Client_connection.end_response
    rw [hs]
  have hend_none : s.on_response_ = none →
      Client_connection.end_response user s err = none := by
    intro hs
    unfold Client_connection.end_response
    rw [hs]
  refine ⟨?_, ?_, ?_, ?_, ?_, hend_none, ?_⟩
  · intro h hs
    rw [hclose_some h hs]
    exact ⟨rfl, rfl, rfl, rfl⟩
  · intro hs
    rw [hclose_none s hs]
    exact ⟨rfl, rfl⟩
  · rcases hs : s.on_response_ with _ | h
    · rw [hclose_none s hs]
      show 0 ≤ 1
      exact Nat.zero_le 1
    · rw [hclose_some h hs]
      show 1 ≤ 1
      exact Nat.le_refl 1
  · rcases hs : s.on_response_ with _ | h
    · rw [hclose_none s hs]
      rfl
    · rw [hclose_some h hs]
      rfl
  · intro h hs
    exact ⟨_, hend_some h hs, rfl, rfl, rfl⟩
  · intro huser
    have hafter : (Client_connection.close user s).1.on_response_ = none := by
      rcases hs : s.on_response_ with _ | h
      · rw [hclose_none s hs]
        exact hs
      · rw [hclose_some h hs]
        show (user h Error.CLOSING s.res_ s.handed_over).on_response_ = none
        rw [huser]
        rfl
    refine ⟨hafter, ?_, ?_⟩
    · intro r hr
      rcases hs : s.on_response_ with _ | h
      · rw [hend_none hs] at hr
        cases hr
      · rw [hend_some h hs] at hr
        cases hr
        have hslot : (user h err s.res_ s.handed_over).on_response_ = none := by
          rw [huser]
          rfl
        refine ⟨hslot, ?_⟩
        rw [hclose_none _ hslot]
        rfl
    · rw [hclose_none _ hafter]
      rfl

end http

namespace hw

/-! ## PCI resource size -/

/-- For `0 < x < 2^bits`, `x & ~(x - 1)` is the power of two at the lowest set
bit of `x`. -/
theorem lowest_bit (bits k q : Nat) (hx : 2 ^ k * (2 * q + 1) < 2 ^ bits) :
    (2 ^ k * (2 * q + 1)) &&& (2 ^ bits - ((2 ^ k * (2 * q + 1) - 1) + 1)) = 2 ^ k := by
  have hkpos : 0 < 2 ^ k := Nat.two_pow_pos k
  have hxpos : 0 < 2 ^ k * (2 * q + 1) := Nat.mul_pos hkpos (by omega)
  have hle : 2 ^ k ≤ 2 ^ k * (2 * q + 1) := Nat.le_mul_of_pos_right _ (by omega)
  have hkw : k < bits := by
    by_contra hge
    have : 2 ^ bits ≤ 2 ^ k := Nat.pow_le_pow_right (by decide) (by omega)
    omega
  have hpred : 2 ^ k * (2 * q + 1) - 1 = 2 ^ k * (2 * q) + (2 ^ k - 1) := by
    have : 2 ^ k * (2 * q + 1) = 2 ^ k * (2 * q) + 2 ^ k := by ring
    omega
  apply Nat.eq_of_testBit_eq
  intro j
  rw [Nat.testBit_and, Nat.testBit_two_pow_sub_succ (by omega), Nat.testBit_mul_pow_two,
    hpred, Nat.testBit_mul_pow_two_add _ (by omega), Nat.testBit_two_pow_sub_one,
    Nat.testBit_two_pow]
  rcases Nat.lt_trichotomy j k with hlt | heq | hgt
  · have h1 : ¬ j ≥ k := by omega
    have h2 : ¬ k = j := by omega
    simp [h1, h2]
  · subst heq
    have h1 : ¬ j < j := by omega
    have h2 : (2 * q + 1) % 2 = 1 := by omega
    have h3 : ¬ (2 * q) % 2 = 1 := by omega
    simp [h1, hkw, h2, h3]
  · have h1 : j ≥ k := by omega
    have h2 : ¬ j < k := by omega
    have h3 : ¬ k = j := by omega
    obtain ⟨m, hm⟩ : ∃ m, j - k = m + 1 := ⟨j - k - 1, by omega⟩
    have e1 : (2 * q + 1) / 2 = q := by omega
    have e2 : (2 * q) / 2 = q := by omega
    simp only [h1, h2, h3, hm, Nat.testBit_add_one, e1, e2, if_false, decide_True,
      decide_False, Bool.true_and]
    cases Nat.testBit q m <;> simp

/-- C30: for `base` and `mask` that fit the `unsigned long`, `pci_size(base,
mask)` is 0 when `base & mask` is 0, and otherwise the lowest set bit of
`base & mask`: a power of two `2^k` such that bit `k` of `base & mask` is set
and no lower bit is, which divides `base & mask` and does not exceed it. -/
theorem pci_size_lowest_bit (bits base mask : Nat) (hbase : base < 2 ^ bits) :
    (base &&& mask = 0 → pci_size bits base mask = 0)
      ∧ (base &&& mask ≠ 0 →
          ∃ k : Nat, pci_size bits base mask = 2 ^ k
            ∧ (base &&& mask).testBit k = true
            ∧ (∀ j : Nat, j < k → (base &&& mask).testBit j = false)
            ∧ pci_size bits base mask ∣ (base &&& mask)
            ∧ pci_size bits base mask ≤ (base &&& mask)) := by
  have hcomm : mask &&& base = base &&& mask := Nat.and_comm _ _
  have hlt : base &&& mask < 2 ^ bits := Nat.lt_of_le_of_lt Nat.and_le_left hbase
  have hpow : 0 < 2 ^ bits := Nat.two_pow_pos bits
  have hdef : pci_size bits base mask
      = (base &&& mask) &&& (2 ^ bits - 1 - ((base &&& mask) + 2 ^ bits - 1) % 2 ^ bits) := by
    unfold pci_size
    simp only [hcomm]
  rw [hdef]
  generalize base &&& mask = x at hlt
  constructor
  · intro h0
    rw [h0]
    exact Nat.zero_and _
  · intro hne
    obtain ⟨k, m, hodd, hx⟩ := Nat.exists_eq_two_pow_mul_odd hne
    obtain ⟨q, hq⟩ := hodd
    rw [hq] at hx
    have hxpos : 0 < x := Nat.pos_of_ne_zero hne
    have hpred : (x + 2 ^ bits - 1) % 2 ^ bits = x - 1 := by
      have e : x + 2 ^ bits - 1 = (x - 1) + 2 ^ bits := by omega
      rw [e, Nat.add_mod_right, Nat.mod_eq_of_lt (by omega)]
    have hodd1 : (2 * q + 1) % 2 = 1 := by omega
    have hval : x &&& (2 ^ bits - 1 - (x + 2 ^ bits - 1) % 2 ^ bits) = 2 ^ k := by
      have e : 2 ^ bits - 1 - (x - 1) = 2 ^ bits - ((x - 1) + 1) := by omega
      rw [hpred, e, hx]
      exact lowest_bit bits k q (by rw [← hx]; exact hlt)
    refine ⟨k, hval, ?_, ?_, ?_, ?_⟩
    · rw [hx, Nat.testBit_mul_pow_two]
      simp [hodd1]
    · intro j hj
      rw [hx, Nat.testBit_mul_pow_two]
      have : ¬ j ≥ k := by omega
      simp [this]
    · rw [hval, hx]
      exact Dvd.intro _ rfl
    · rw [hval, hx]
      exact Nat.le_mul_of_pos_right _ (by omega)

/-- Evaluation of C30 on a 32-bit I/O BAR read back as `0xffffff01` with the
mask `0xfffffffc`: the decode size is 256. -/
theorem pci_size_lowest_bit_witness :
    pci_size 32 4294967041 4294967292 = 256
      ∧ ∃ k : Nat, pci_size 32 4294967041 4294967292 = 2 ^ k
          ∧ (4294967041 &&& 4294967292).testBit k = true
          ∧ (∀ j : Nat, j < k → (4294967041 &&& 4294967292).testBit j = false)
          ∧ pci_size 32 4294967041 4294967292 ∣ (4294967041 &&& 4294967292)
          ∧ pci_size 32 4294967041 4294967292 ≤ (4294967041 &&& 4294967292) :=
  ⟨by decide, (pci_size_lowest_bit 32 4294967041 4294967292 (by decide)).2 (by decide)⟩

end hw

namespace net.tcp

/-! ## Flight size against the send window -/

/-- Sending `len <= usable_window()` bytes from a state within the send window
adds exactly `len` to the flight size, leaves the send window as it is and
stays within it. -/
theorem transmit_flight_size (len : Nat) (cb : TCB) (hWND : is_uint32 cb.SND.WND)
    (hcwnd : is_uint32 cb.cwnd) (hb : flight_size cb ≤ send_window cb)
    (hlen : len ≤ usable_window cb) :
    flight_size (transmit len cb) = flight_size cb + len
      ∧ send_window (transmit len cb) = send_window cb
      ∧ flight_size (transmit len cb) ≤ send_window (transmit len cb) := by
  have hu := usable_window_cast cb hWND hcwnd
  have hs : send_window cb = min cb.SND.WND cb.cwnd := rfl
  have hs2 : send_window (transmit len cb) = send_window cb := rfl
  have hf : (flight_size cb : Int) = ((cb.SND.NXT : Int) - (cb.SND.UNA : Int)) % 4294967296 :=
    to_uint32_cast _
  have hf2 : (flight_size (transmit len cb) : Int)
      = ((to_uint32 ((cb.SND.NXT : Int) + (len : Int)) : Int) - (cb.SND.UNA : Int))
          % 4294967296 := to_uint32_cast _
  rw [to_uint32_cast] at hf2
  unfold is_uint32 at hWND hcwnd
  have hsum : flight_size (transmit len cb) = flight_size cb + len := by omega
  refine ⟨hsum, hs2, ?_⟩
  rw [hs2, hsum]
  omega

/-- A change of `cwnd` or of the window variables alone leaves the flight
size as it is. -/
theorem flight_size_congr (cb cb2 : TCB) (hU : cb2.SND.UNA = cb.SND.UNA)
    (hN : cb2.SND.NXT = cb.SND.NXT) : flight_size cb2 = flight_size cb := by
  unfold flight_size
  rw [hU, hN]

end net.tcp
